import Mathlib

/-!
# Shallow embedding of the NanoCBOR codec (decoder.c, encoder.c, nanocbor.h)

Byte buffers are modelled as `List Nat` (each entry a byte value `< 256`);
pointers into buffers become natural-number indices into one global memory
list, so that a decoder cursor, its `end` pointer and the packed shared-item
tables all address the same memory, exactly as C pointers do.  Machine
integers are `Nat`/`Int` with explicit wrap-around where the C code can
overflow (`uint64_t remaining`, `size_t len`).

C functions that mutate state through a pointer become Lean functions
returning the written result next to the C `int` return value.  Decoder
functions that can recurse (the packed-CBOR resolver and the skip engine
are mutually recursive through container entry and the transparent
packed-handling prologue of every getter) take an explicit `fuel : Nat`
that shrinks on every nested call and loop iteration; `none` means the
computation did not finish within `fuel` steps.  The C recursion *limit*
(`NANOCBOR_RECURSION_MAX` budgets) is modelled separately and faithfully as
the `limit` arguments, because it is program data, not a totality device.
-/

/-- CBOR major types (values of the C `int` type computations). -/
def NANOCBOR_TYPE_UINT : Int := 0

def NANOCBOR_TYPE_NINT : Int := 1

def NANOCBOR_TYPE_BSTR : Int := 2

def NANOCBOR_TYPE_TSTR : Int := 3

def NANOCBOR_TYPE_ARR : Int := 4

def NANOCBOR_TYPE_MAP : Int := 5

def NANOCBOR_TYPE_TAG : Int := 6

def NANOCBOR_TYPE_FLOAT : Int := 7

/-- Initial-byte masks, `major << NANOCBOR_TYPE_OFFSET`. -/
def NANOCBOR_MASK_UINT : Nat := 0x00

def NANOCBOR_MASK_NINT : Nat := 0x20

def NANOCBOR_MASK_BSTR : Nat := 0x40

def NANOCBOR_MASK_TSTR : Nat := 0x60

def NANOCBOR_MASK_ARR : Nat := 0x80

def NANOCBOR_MASK_MAP : Nat := 0xA0

def NANOCBOR_MASK_TAG : Nat := 0xC0

def NANOCBOR_MASK_FLOAT : Nat := 0xE0

def NANOCBOR_VALUE_MASK : Nat := 0x1F

/-- Argument-info size classes. -/
def NANOCBOR_SIZE_BYTE : Nat := 24

def NANOCBOR_SIZE_SHORT : Nat := 25

def NANOCBOR_SIZE_WORD : Nat := 26

def NANOCBOR_SIZE_LONG : Nat := 27

def NANOCBOR_SIZE_INDEFINITE : Nat := 31

/-- Modelled from the spec: `config.h` is not among the sources; on the
64-bit targets the spec describes, `size_t` is 64 bits wide so the maximum
size class for string lengths is the 8-byte one. -/
def NANOCBOR_SIZE_SIZET : Nat := NANOCBOR_SIZE_LONG

def NANOCBOR_SIMPLE_FALSE : Nat := 20

def NANOCBOR_SIMPLE_TRUE : Nat := 21

def NANOCBOR_SIMPLE_NULL : Nat := 22

def NANOCBOR_SIMPLE_UNDEF : Nat := 23

/-- Error codes from the `nanocbor_error_t` enum. -/
def NANOCBOR_OK : Int := 0

def NANOCBOR_ERR_OVERFLOW : Int := -1

def NANOCBOR_ERR_INVALID_TYPE : Int := -2

def NANOCBOR_ERR_END : Int := -3

def NANOCBOR_ERR_RECURSION : Int := -4

def NANOCBOR_NOT_FOUND : Int := -5

/-- Modelled from the spec: the packed-CBOR error codes referenced by
`decoder.c` are declared in a header revision that is not among the
sources; the spec lists them as distinct members of the error taxonomy,
continuing the negative enumeration. -/
def NANOCBOR_ERR_PACKED_FORMAT : Int := -6

/-- Modelled from the spec: see `NANOCBOR_ERR_PACKED_FORMAT`. -/
def NANOCBOR_ERR_PACKED_MEMORY : Int := -7

/-- Modelled from the spec: see `NANOCBOR_ERR_PACKED_FORMAT`. -/
def NANOCBOR_ERR_PACKED_UNDEFINED_REFERENCE : Int := -8

/-- Decoder flag bits from `nanocbor.h`. -/
def NANOCBOR_DECODER_FLAG_CONTAINER : Nat := 0x01

def NANOCBOR_DECODER_FLAG_INDEFINITE : Nat := 0x02

/-- Modelled from the spec: the packed-support and shared flag bits are
declared in a header revision not among the sources; the spec lists
`PACKED_ENABLED` and `SHARED` as further bits of the same flag bitset. -/
def NANOCBOR_DECODER_FLAG_PACKED_SUPPORT : Nat := 0x04

/-- Modelled from the spec: see `NANOCBOR_DECODER_FLAG_PACKED_SUPPORT`. -/
def NANOCBOR_DECODER_FLAG_SHARED : Nat := 0x08

/-- Modelled from the spec: `config.h` is not among the sources; the spec
gives "a constant `RECURSION_MAX` (e.g. 8)". -/
def NANOCBOR_RECURSION_MAX : Nat := 8

/-- Modelled from the spec: `config.h` is not among the sources; the spec
bounds the packed-table stack by a small constant "K small, e.g. 8". -/
def NANOCBOR_DECODE_PACKED_NESTED_TABLES_MAX : Nat := 8

/-- Tag numbers interpreted by the packed resolver (values from the spec's
packed-CBOR description, draft-ietf-cbor-packed). -/
def NANOCBOR_TAG_PACKED_TABLE : Nat := 113

def NANOCBOR_TAG_PACKED_REF_SHARED : Nat := 6

/-- Wrap-around modulus of `uint64_t`. -/
def U64_MOD : Nat := 2 ^ 64

/-- `uint64_t` decrement with wrap-around (`value->remaining--`). -/
def wrapDec (r : Nat) : Nat := if r = 0 then U64_MOD - 1 else r - 1

/-- The decoder cursor `nanocbor_value_t`.  `mem` is the global byte
memory every pointer indexes into; `cur`/`endp` are the `cur`/`end`
pointers; `tables`/`numTables` are the packed `shared_item_tables` array
(a table is `(start pointer, byte length)`, `none` standing for the C
`NULL` start pointer) and `num_active_tables`. -/
structure NValue where
  mem : List Nat
  cur : Nat
  endp : Nat
  remaining : Nat
  flags : Nat
  tables : List (Option Nat × Nat)
  numTables : Nat
deriving DecidableEq, Repr

/-- Read the byte at absolute index `i` (a `const uint8_t *` dereference). -/
def readByte (s : NValue) (i : Nat) : Nat := s.mem.getD i 0 % 256

/-- Big-endian read of `n` bytes starting at `start` (the `memcpy` +
`NANOCBOR_BE64TOH_FUNC` sequence in `_get_uint64`). -/
def readBE (s : NValue) (start : Nat) : Nat → Nat
  | 0 => 0
  | n + 1 => readBE s start n * 256 + readByte s (start + n)

/-- `nanocbor_decoder_init`.  The C code leaves `remaining` uninitialized
for a top-level cursor ("no need to initialize value->remaining"); the
model fixes the indeterminate value to `0`.  The packed table array is
`memset` to zero, i.e. all-`NULL` starts. -/
def nanocbor_decoder_init (mem : List Nat) (buf len : Nat) : NValue :=
  { mem := mem
    cur := buf
    endp := buf + len
    remaining := 0
    flags := 0
    tables := List.replicate NANOCBOR_DECODE_PACKED_NESTED_TABLES_MAX (none, 0)
    numTables := 0 }

/-- `_advance`: move `cur` and decrement `remaining` (with `uint64_t`
wrap-around). -/
def _advance (s : NValue) (res : Nat) : NValue :=
  { s with cur := s.cur + res, remaining := wrapDec s.remaining }

/-- `_advance_if`. -/
def _advance_if (s : NValue) (res : Int) : Int × NValue :=
  if res > 0 then (res, _advance s res.toNat) else (res, s)

/-- `_over_end`. -/
def _over_end (s : NValue) : Bool := s.endp ≤ s.cur

/-- `_value_match_exact`. -/
def _value_match_exact (s : NValue) (val : Nat) : Int × NValue :=
  if _over_end s then (NANOCBOR_ERR_END, s)
  else if readByte s s.cur = val then (NANOCBOR_OK, _advance s 1)
  else (NANOCBOR_ERR_INVALID_TYPE, s)

/-- `nanocbor_container_indefinite` (header): note the *exact* equality
with `INDEFINITE | CONTAINER`. -/
def nanocbor_container_indefinite (s : NValue) : Bool :=
  s.flags = (NANOCBOR_DECODER_FLAG_INDEFINITE ||| NANOCBOR_DECODER_FLAG_CONTAINER)

/-- `nanocbor_in_container` (header). -/
def nanocbor_in_container (s : NValue) : Bool :=
  s.flags &&& NANOCBOR_DECODER_FLAG_CONTAINER ≠ 0

/-- `nanocbor_container_remaining` (header): truncates to `uint32_t`. -/
def nanocbor_container_remaining (s : NValue) : Nat :=
  s.remaining % 2 ^ 32

/-- `nanocbor_array_items_remaining` (header). -/
def nanocbor_array_items_remaining (s : NValue) : Nat :=
  nanocbor_container_remaining s

/-- `nanocbor_at_end`. -/
def nanocbor_at_end (s : NValue) : Bool :=
  _over_end s
  || (nanocbor_container_indefinite s
      && readByte s s.cur = (NANOCBOR_MASK_FLOAT ||| NANOCBOR_VALUE_MASK))
  || (!nanocbor_container_indefinite s && nanocbor_in_container s
      && s.remaining = 0)

/-- `__get_type`: major type at the cursor, or `NANOCBOR_ERR_END`. -/
def __get_type (s : NValue) : Int :=
  if nanocbor_at_end s then NANOCBOR_ERR_END
  else ((readByte s s.cur) / 32 : Nat)

/-- `_get_uint64`: decode the head at the cursor as a numeric argument of
size class at most `max` and major type `type`.  Returns the C `int`
result (positive byte count or error) together with the value stored in
`*value` (call sites initialize the output to `0`, which is returned
unchanged on the paths that do not store). -/
def _get_uint64 (s : NValue) (max : Nat) (type : Int) : Int × Nat :=
  let ctype := __get_type s
  if ctype < 0 then (ctype, 0)
  else if type ≠ ctype then (NANOCBOR_ERR_INVALID_TYPE, 0)
  else
    let bytelen := readByte s s.cur &&& NANOCBOR_VALUE_MASK
    if bytelen < NANOCBOR_SIZE_BYTE then (1, bytelen)
    else if max < bytelen then (NANOCBOR_ERR_OVERFLOW, 0)
    else
      let bytes := 2 ^ (bytelen - NANOCBOR_SIZE_BYTE)
      if s.endp ≤ s.cur + bytes then (NANOCBOR_ERR_END, 0)
      else (1 + bytes, readBE s (s.cur + 1) bytes)

/-- `_packed_enabled`. -/
def _packed_enabled (s : NValue) : Bool :=
  s.flags &&& NANOCBOR_DECODER_FLAG_PACKED_SUPPORT ≠ 0

/-- `_packed_copy_tables`: overwrite `dest`'s active table set with
`src`'s. -/
def _packed_copy_tables (dest src : NValue) : NValue :=
  { dest with tables := src.tables, numTables := src.numTables }

/-- `nanocbor_decoder_init_packed`. -/
def nanocbor_decoder_init_packed (mem : List Nat) (buf len : Nat) : NValue :=
  { nanocbor_decoder_init mem buf len with
    flags := NANOCBOR_DECODER_FLAG_PACKED_SUPPORT
    numTables := 0 }

/-- `__enter_container`: build the child cursor for a container of major
type `type`.  `container` is the caller-prepared out-parameter (its
`flags` and table set are already initialized by the caller, as the C
comment demands); the C code leaves `container->cur` unwritten on the
error path, which the model reflects by returning the prepared
`container` unchanged there. -/
def __enter_container (it container : NValue) (type : Int) : Int × NValue :=
  let c := { container with mem := it.mem, endp := it.endp, remaining := 0 }
  let value_match := type.toNat * 32 + NANOCBOR_SIZE_INDEFINITE
  if !_over_end it && readByte it it.cur = value_match then
    (NANOCBOR_OK,
      { c with
        flags := c.flags ||| (NANOCBOR_DECODER_FLAG_INDEFINITE
          ||| NANOCBOR_DECODER_FLAG_CONTAINER)
        cur := it.cur + 1 })
  else
    let r := _get_uint64 it NANOCBOR_SIZE_LONG type
    if r.1 < 0 then (r.1, c)
    else
      (NANOCBOR_OK,
        { c with
          flags := c.flags ||| NANOCBOR_DECODER_FLAG_CONTAINER
          remaining := r.2
          cur := it.cur + r.1.toNat })

/-- The "uninitialized local `nanocbor_value_t`" out-parameters that C
functions pass by pointer; the model fixes the indeterminate contents to
zeroes/empty. -/
def uninitValue (mem : List Nat) : NValue :=
  { mem := mem
    cur := 0
    endp := 0
    remaining := 0
    flags := 0
    tables := List.replicate NANOCBOR_DECODE_PACKED_NESTED_TABLES_MAX (none, 0)
    numTables := 0 }

/-- `_enter_array_unpacked`: enter an array without packed resolution of
the head, inheriting the table set and packed support if enabled. -/
def _enter_array_unpacked (it : NValue) : Int × NValue :=
  let array0 := uninitValue it.mem
  let array1 :=
    if _packed_enabled it then
      { _packed_copy_tables array0 it with
        flags := NANOCBOR_DECODER_FLAG_PACKED_SUPPORT }
    else { array0 with flags := 0 }
  __enter_container it array1 NANOCBOR_TYPE_ARR

/-- Big-endian byte list of the low `n` bytes of `v` (the tail of
`NANOCBOR_HTOBE64_FUNC(num)` appended by the encoder). -/
def beBytes : Nat → Nat → List Nat
  | 0, _ => []
  | n + 1, v => beBytes n (v / 256) ++ [v % 256]

/-- The encoder context `nanocbor_encoder_t` with the built-in memory
sink: `len` is the logical length counter (a `size_t`, wrapping mod
`2^64`), `written` the bytes appended so far (`cur` is its length) and
`cap` the capacity `end - buf`. -/
structure NEncoder where
  len : Nat
  written : List Nat
  cap : Nat
deriving DecidableEq, Repr

/-- `nanocbor_encoder_init` over a buffer of `cap` bytes. -/
def nanocbor_encoder_init (cap : Nat) : NEncoder :=
  { len := 0, written := [], cap := cap }

/-- `nanocbor_encoded_len`. -/
def nanocbor_encoded_len (e : NEncoder) : Nat := e.len

/-- `_encoder_mem_fits`: `(size_t)(end - cur) >= len`. -/
def _encoder_mem_fits (e : NEncoder) (n : Nat) : Bool :=
  n ≤ e.cap - e.written.length

/-- `_encoder_mem_append`. -/
def _encoder_mem_append (e : NEncoder) (data : List Nat) : NEncoder :=
  { e with written := e.written ++ data }

/-- `_incr_len`: `enc->len += len`, a `size_t` addition. -/
def _incr_len (e : NEncoder) (n : Nat) : NEncoder :=
  { e with len := (e.len + n) % U64_MOD }

/-- `_fits`: the byte count as `int` if the sink accepts, else
`NANOCBOR_ERR_END`. -/
def _fits (e : NEncoder) (n : Nat) : Int :=
  if _encoder_mem_fits e n then (n : Int) else NANOCBOR_ERR_END

/-- `_fmt_single`. -/
def _fmt_single (e : NEncoder) (single : Nat) : Int × NEncoder :=
  let e1 := _incr_len e 1
  let res := _fits e1 1
  if res = 1 then (res, _encoder_mem_append e1 [single]) else (res, e1)

/-- `_fmt_uint64`: emit the smallest head holding `num` with major-type
mask `type`. -/
def _fmt_uint64 (e : NEncoder) (num : Nat) (type : Nat) : Int × NEncoder :=
  let ibx : Nat × Nat :=
    if num < NANOCBOR_SIZE_BYTE then (type ||| num, 0)
    else if 0xFFFFFFFF < num then (type ||| NANOCBOR_SIZE_LONG, 8)
    else if 0xFFFF < num then (type ||| NANOCBOR_SIZE_WORD, 4)
    else if 0xFF < num then (type ||| NANOCBOR_SIZE_SHORT, 2)
    else (type ||| NANOCBOR_SIZE_BYTE, 1)
  let e1 := _incr_len e (ibx.2 + 1)
  let res := _fits e1 (ibx.2 + 1)
  if res > 0 then
    (res, _encoder_mem_append (_encoder_mem_append e1 [ibx.1]) (beBytes ibx.2 num))
  else (res, e1)

/-- `nanocbor_fmt_bool`. -/
def nanocbor_fmt_bool (e : NEncoder) (content : Bool) : Int × NEncoder :=
  _fmt_single e
    (NANOCBOR_MASK_FLOAT
      ||| (if content then NANOCBOR_SIMPLE_TRUE else NANOCBOR_SIMPLE_FALSE))

/-- `nanocbor_fmt_uint`. -/
def nanocbor_fmt_uint (e : NEncoder) (num : Nat) : Int × NEncoder :=
  _fmt_uint64 e num NANOCBOR_MASK_UINT

/-- `nanocbor_fmt_tag`. -/
def nanocbor_fmt_tag (e : NEncoder) (num : Nat) : Int × NEncoder :=
  _fmt_uint64 e num NANOCBOR_MASK_TAG

/-- `nanocbor_fmt_int`: negatives are encoded as `-(num + 1)` in the
nint major. -/
def nanocbor_fmt_int (e : NEncoder) (num : Int) : Int × NEncoder :=
  if num < 0 then _fmt_uint64 e (-(num + 1)).toNat NANOCBOR_MASK_NINT
  else nanocbor_fmt_uint e num.toNat

/-- `nanocbor_fmt_simple`: rejects the assigned/reserved values 20..31. -/
def nanocbor_fmt_simple (e : NEncoder) (value : Nat) : Int × NEncoder :=
  if NANOCBOR_SIMPLE_FALSE ≤ value ∧ value ≤ NANOCBOR_SIZE_INDEFINITE then
    (NANOCBOR_ERR_INVALID_TYPE, e)
  else _fmt_uint64 e value NANOCBOR_MASK_FLOAT

/-- `nanocbor_fmt_bstr`. -/
def nanocbor_fmt_bstr (e : NEncoder) (len : Nat) : Int × NEncoder :=
  _fmt_uint64 e len NANOCBOR_MASK_BSTR

/-- `nanocbor_fmt_tstr`. -/
def nanocbor_fmt_tstr (e : NEncoder) (len : Nat) : Int × NEncoder :=
  _fmt_uint64 e len NANOCBOR_MASK_TSTR

/-- `nanocbor_fmt_array`. -/
def nanocbor_fmt_array (e : NEncoder) (len : Nat) : Int × NEncoder :=
  _fmt_uint64 e len NANOCBOR_MASK_ARR

/-- `nanocbor_fmt_map`. -/
def nanocbor_fmt_map (e : NEncoder) (len : Nat) : Int × NEncoder :=
  _fmt_uint64 e len NANOCBOR_MASK_MAP

/-- `nanocbor_fmt_array_indefinite`. -/
def nanocbor_fmt_array_indefinite (e : NEncoder) : Int × NEncoder :=
  _fmt_single e (NANOCBOR_MASK_ARR ||| NANOCBOR_SIZE_INDEFINITE)

/-- `nanocbor_fmt_map_indefinite`. -/
def nanocbor_fmt_map_indefinite (e : NEncoder) : Int × NEncoder :=
  _fmt_single e (NANOCBOR_MASK_MAP ||| NANOCBOR_SIZE_INDEFINITE)

/-- `nanocbor_fmt_end_indefinite`. -/
def nanocbor_fmt_end_indefinite (e : NEncoder) : Int × NEncoder :=
  _fmt_single e (NANOCBOR_MASK_FLOAT ||| NANOCBOR_SIZE_INDEFINITE)

/-- `nanocbor_fmt_null`. -/
def nanocbor_fmt_null (e : NEncoder) : Int × NEncoder :=
  _fmt_single e (NANOCBOR_MASK_FLOAT ||| NANOCBOR_SIMPLE_NULL)

/-- The body of `_get_str` between the packed-handling prologue and
epilogue: decode a definite string head of major `type`, check the
declared length against the buffer (`end - cur < 0 || (size_t)(end - cur)
< *len`, a signed pointer-difference comparison) and advance past head
plus payload.  Returns `(res, buf, len, state)` for the C outputs
`(*buf, *len)`. -/
def _get_str_core (s : NValue) (type : Int) : Int × Nat × Nat × NValue :=
  let r := _get_uint64 s NANOCBOR_SIZE_SIZET type
  let len := r.2
  if (s.endp : Int) - (s.cur : Int) < (len : Int) then
    (NANOCBOR_ERR_END, 0, len, s)
  else if 0 ≤ r.1 then
    (NANOCBOR_OK, s.cur + r.1.toNat, len, _advance s (r.1.toNat + len))
  else (r.1, 0, len, s)

/-- Calls of the mutually recursive part of the decoder (the packed-CBOR
resolver and the skip engine, which recurse into each other through
container entry, `leave_container` and the packed-handling prologue).
One constructor per C function; loop constructors stand for the C
`for`/`while` loops inside them. -/
inductive DCall : Type where
  | packedHandle (s : NValue) (limit : Nat)
  | packedHandleFinish (r : Int) (s : NValue) (limit : Nat)
  | packedFollowReference (s : NValue) (idx limit : Nat)
  | packedFollowTables (iters num : Nat) (s : NValue) (idx limit : Nat)
  | packedSkipElems (count : Nat) (s : NValue) (limit : Nat)
  | packedAddArrayAsTable (s : NValue) (limit : Nat)
  | packedConsumeTableDefinition113 (s : NValue) (limit : Nat)
  | enterContainer (it : NValue) (type : Int)
  | enterArray (it : NValue)
  | enterMap (it : NValue)
  | leaveContainer (it container : NValue)
  | skipLimited (s : NValue) (limit : Nat)
  | skipLoop (recurse : NValue) (limit : Nat)
  | skipSimple (s : NValue)
  | getStr (s : NValue) (type : Int)

/-- Results of `DCall` computations: the C `int` return value together
with the state written back through the pointer argument, plus the extra
outputs of the element-skipping loop (`j`) and of `_get_str`
(`*buf`, `*len`). -/
inductive DRes : Type where
  | rs (r : Int) (s : NValue)
  | rjs (r : Int) (j : Nat) (s : NValue)
  | rstr (r : Int) (buf len : Nat) (s : NValue)
deriving DecidableEq, Repr

/-- Project a `DRes` onto the common `(int, state)` shape. -/
def asRS : Option DRes → Option (Int × NValue)
  | some (.rs r s) => some (r, s)
  | _ => none

/-- Project a `DRes` onto the `(int, j, state)` shape of the
element-skipping loop. -/
def asRJS : Option DRes → Option (Int × Nat × NValue)
  | some (.rjs r j s) => some (r, j, s)
  | _ => none

/-- Project a `DRes` onto the `(int, buf, len, state)` shape of
`_get_str`. -/
def asRStr : Option DRes → Option (Int × Nat × Nat × NValue)
  | some (.rstr r b l s) => some (r, b, l, s)
  | _ => none

/-- One step of the recursive decoder core: each branch is the body of
the corresponding C function, with every nested call and loop iteration
going through `rec` (which the driver `decodeRun` ties to a strictly
smaller fuel). -/
def decodeStep (rec : DCall → Option DRes) : DCall → Option DRes
  /- `_packed_handle`: transparently resolve a packed reference or table
  definition at the cursor, if packed support is enabled and one is
  present.  `limit` is the C recursion budget. -/
  | .packedHandle s limit =>
    if !_packed_enabled s then some (.rs NANOCBOR_NOT_FOUND s)
    else if limit = 0 then some (.rs NANOCBOR_ERR_RECURSION s)
    else
      let ctype := __get_type s
      if ctype = NANOCBOR_TYPE_TAG then
        let rt := _get_uint64 s NANOCBOR_SIZE_WORD ctype
        if rt.1 < 0 then some (.rs NANOCBOR_NOT_FOUND s)
        else if rt.2 = NANOCBOR_TAG_PACKED_TABLE then
          let s1 := { s with cur := s.cur + rt.1.toNat }
          match asRS (rec (.packedConsumeTableDefinition113 s1 limit)) with
          | none => none
          | some r => rec (.packedHandleFinish r.1 r.2 limit)
        else if rt.2 = NANOCBOR_TAG_PACKED_REF_SHARED then
          let s1 := { s with cur := s.cur + rt.1.toNat }
          match asRS (rec (.packedHandle s1 (limit - 1))) with
          | none => none
          | some (r2, s2) =>
            if r2 ≠ NANOCBOR_OK ∧ r2 ≠ NANOCBOR_NOT_FOUND then some (.rs r2 s2)
            else
              let ctype2 := __get_type s2
              if ctype2 ≠ NANOCBOR_TYPE_NINT ∧ ctype2 ≠ NANOCBOR_TYPE_UINT then
                some (.rs NANOCBOR_ERR_PACKED_FORMAT s2)
              else
                let rn := _get_uint64 s2 NANOCBOR_SIZE_LONG ctype2
                if rn.1 ≤ 0 then some (.rs NANOCBOR_ERR_PACKED_FORMAT s2)
                else
                  let s3 := _advance s2 rn.1.toNat
                  let idx := (16 + 2 * rn.2
                    + (if ctype2 = NANOCBOR_TYPE_NINT then 1 else 0)) % U64_MOD
                  match asRS (rec (.packedFollowReference s3 idx limit)) with
                  | none => none
                  | some r => rec (.packedHandleFinish r.1 r.2 limit)
        else some (.rs NANOCBOR_NOT_FOUND s)
      else if ctype = NANOCBOR_TYPE_FLOAT then
        let simple := readByte s s.cur &&& NANOCBOR_VALUE_MASK
        if simple < 16 then
          match asRS (rec (.packedFollowReference (_advance s 1) simple limit)) with
          | none => none
          | some r => rec (.packedHandleFinish r.1 r.2 limit)
        else some (.rs NANOCBOR_NOT_FOUND s)
      else some (.rs NANOCBOR_NOT_FOUND s)
  /- The common tail of `_packed_handle`: on success, recursively unpack
  the resolved item under a decremented budget. -/
  | .packedHandleFinish r s limit =>
    if r = NANOCBOR_OK then
      match asRS (rec (.packedHandle s (limit - 1))) with
      | none => none
      | some (r2, s2) =>
        some (.rs (if r2 < 0 ∧ r2 ≠ NANOCBOR_NOT_FOUND then r2 else NANOCBOR_OK) s2)
    else some (.rs r s)
  /- `_packed_follow_reference`: reposition the cursor on the data item
  with reference index `idx`, searching the active tables top of stack
  first. -/
  | .packedFollowReference s idx limit =>
    rec (.packedFollowTables s.numTables s.numTables s idx limit)
  /- The `for` loop of `_packed_follow_reference` over the active tables:
  `iters` iterations remain out of `num`. -/
  | .packedFollowTables iters num s idx limit =>
    match iters with
    | 0 => some (.rs NANOCBOR_ERR_PACKED_UNDEFINED_REFERENCE s)
    | iters + 1 =>
      let i := num - (iters + 1)
      let t := s.tables.getD (num - 1 - i) (none, 0)
      match t.1 with
      | none => some (.rs NANOCBOR_ERR_PACKED_FORMAT s)
      | some tstart =>
        let table := _packed_copy_tables
          (nanocbor_decoder_init_packed s.mem tstart t.2) s
        let re := _enter_array_unpacked table
        if re.1 < 0 then
          some (.rs (if re.1 = NANOCBOR_ERR_RECURSION then re.1
                     else NANOCBOR_ERR_PACKED_FORMAT) re.2)
        else
          let cv := re.2
          let table_size :=
            if nanocbor_container_indefinite cv then 2 ^ 32 - 1
            else nanocbor_array_items_remaining cv
          if idx < table_size then
            match asRJS (rec (.packedSkipElems idx cv limit)) with
            | none => none
            | some (res, j, cv2) =>
              if res < 0 then some (.rs res cv2)
              else if nanocbor_at_end cv2 then
                rec (.packedFollowTables iters num cv2 (idx - j) limit)
              else some (.rs NANOCBOR_OK { cv2 with numTables := num - i })
          else rec (.packedFollowTables iters num cv (idx - table_size) limit)
  /- The `while (j < idx && !nanocbor_at_end(cvalue))` loop of
  `_packed_follow_reference`: skip up to `count` table elements,
  returning the number skipped. -/
  | .packedSkipElems count s limit =>
    match count with
    | 0 => some (.rjs NANOCBOR_OK 0 s)
    | count + 1 =>
      if nanocbor_at_end s then some (.rjs NANOCBOR_OK 0 s)
      else
        match asRS (rec (.skipLimited s limit)) with
        | none => none
        | some (res, s2) =>
          if res < 0 then some (.rjs res 0 s2)
          else
            match asRJS (rec (.packedSkipElems count s2 limit)) with
            | none => none
            | some (r2, j, s3) => some (.rjs r2 (j + 1) s3)
  /- `_packed_add_array_as_table`: append the array at the cursor to the
  active table set and skip past it. -/
  | .packedAddArrayAsTable s limit =>
    if limit = 0 then some (.rs NANOCBOR_ERR_RECURSION s)
    else
      match asRS (rec (.packedHandle s (limit - 1))) with
      | none => none
      | some (ret, followed) =>
        if ret ≠ NANOCBOR_OK ∧ ret ≠ NANOCBOR_NOT_FOUND then some (.rs ret s)
        else
          let cv := if ret = NANOCBOR_OK then _packed_copy_tables s followed else s
          match asRS (rec (.skipLimited cv (limit - 1))) with
          | none => none
          | some (r2, cv2) =>
            if r2 ≠ NANOCBOR_OK then some (.rs r2 cv2)
            else if NANOCBOR_DECODE_PACKED_NESTED_TABLES_MAX ≤ cv2.numTables then
              some (.rs NANOCBOR_ERR_PACKED_MEMORY cv2)
            else if __get_type followed ≠ NANOCBOR_TYPE_ARR then
              some (.rs NANOCBOR_ERR_PACKED_FORMAT cv2)
            else
              let tstart := followed.cur
              match asRS (rec (.skipLimited followed (limit - 1))) with
              | none => none
              | some (r3, followed2) =>
                if r3 ≠ NANOCBOR_OK then
                  some (.rs r3
                    { cv2 with
                      tables := cv2.tables.set cv2.numTables
                        (some tstart, (cv2.tables.getD cv2.numTables (none, 0)).2) })
                else
                  some (.rs NANOCBOR_OK
                    { cv2 with
                      tables := cv2.tables.set cv2.numTables
                        (some tstart, followed2.cur - tstart)
                      numTables := cv2.numTables + 1 })
  /- `_packed_consume_table_definition_113`: consume a tag-113
  `[table, rump]` envelope, installing the table and narrowing the
  cursor to the rump. -/
  | .packedConsumeTableDefinition113 s limit =>
    match asRS (rec (.packedHandle s (limit - 1))) with
    | none => none
    | some (ret, cv) =>
      if ret ≠ NANOCBOR_OK ∧ ret ≠ NANOCBOR_NOT_FOUND then some (.rs ret cv)
      else
        let re := _enter_array_unpacked cv
        if re.1 ≠ NANOCBOR_OK then some (.rs NANOCBOR_ERR_PACKED_FORMAT cv)
        else
          match asRS (rec (.packedAddArrayAsTable re.2 (limit - 1))) with
          | none => none
          | some (r2, arr) =>
            if r2 ≠ NANOCBOR_OK then some (.rs r2 cv)
            else
              let cv2 := { _packed_copy_tables cv arr with cur := arr.cur }
              match asRS (rec (.skipLimited arr (limit - 1))) with
              | none => none
              | some (r3, arr2) =>
                if r3 ≠ NANOCBOR_OK then some (.rs r3 cv2)
                else if !nanocbor_at_end arr2 then
                  some (.rs NANOCBOR_ERR_PACKED_FORMAT cv2)
                else some (.rs NANOCBOR_OK { cv2 with endp := arr2.cur })
  /- `_enter_container`: resolve a possible packed reference, then enter
  the container; a packed-resolved child additionally carries the
  `SHARED` flag. -/
  | .enterContainer it type =>
    if _packed_enabled it then
      match asRS (rec (.packedHandle it (NANOCBOR_RECURSION_MAX - 1))) with
      | none => none
      | some (r, inner) =>
        if r = NANOCBOR_OK then
          let rc := __enter_container inner
            { _packed_copy_tables (uninitValue it.mem) inner with
              flags := NANOCBOR_DECODER_FLAG_PACKED_SUPPORT
                ||| NANOCBOR_DECODER_FLAG_SHARED } type
          some (.rs rc.1 rc.2)
        else if r ≠ NANOCBOR_NOT_FOUND then some (.rs r (uninitValue it.mem))
        else
          let rc := __enter_container it
            { _packed_copy_tables (uninitValue it.mem) it with
              flags := NANOCBOR_DECODER_FLAG_PACKED_SUPPORT } type
          some (.rs rc.1 rc.2)
    else
      let rc := __enter_container it { uninitValue it.mem with flags := 0 } type
      some (.rs rc.1 rc.2)
  /- `nanocbor_enter_array`. -/
  | .enterArray it => rec (.enterContainer it NANOCBOR_TYPE_ARR)
  /- `nanocbor_enter_map`: like an array but with `remaining` doubled
  (keys and values each count one), guarded against `uint64_t`
  overflow. -/
  | .enterMap it =>
    match asRS (rec (.enterContainer it NANOCBOR_TYPE_MAP)) with
    | none => none
    | some (res, m) =>
      if (U64_MOD - 1) / 2 < m.remaining then some (.rs NANOCBOR_ERR_OVERFLOW m)
      else some (.rs res { m with remaining := m.remaining * 2 })
  /- `nanocbor_leave_container`. -/
  | .leaveContainer it container =>
    if !nanocbor_in_container container || !nanocbor_at_end container then
      some (.rs NANOCBOR_ERR_INVALID_TYPE it)
    else if container.flags &&& NANOCBOR_DECODER_FLAG_SHARED ≠ 0 then
      rec (.skipLimited it NANOCBOR_RECURSION_MAX)
    else if container.cur ≤ it.cur || it.endp < container.cur then
      some (.rs NANOCBOR_ERR_INVALID_TYPE it)
    else
      let it1 :=
        if it.remaining ≠ 0 then { it with remaining := it.remaining - 1 } else it
      some (.rs NANOCBOR_OK
        { it1 with
          cur := if nanocbor_container_indefinite container then container.cur + 1
                 else container.cur })
  /- `_skip_limited`: skip one data item under recursion budget `limit`.
  Note two faithfully reproduced quirks of the C code: the result of
  `nanocbor_leave_container` is discarded, and the tag branch declares a
  shadowing inner `res`, so errors of the tag-content skip are discarded
  as well (the outer `res` still holds the non-negative major type). -/
  | .skipLimited s limit =>
    if limit = 0 then some (.rs NANOCBOR_ERR_RECURSION s)
    else
      let type := __get_type s
      if type = NANOCBOR_TYPE_ARR ∨ type = NANOCBOR_TYPE_MAP then
        match asRS (rec (if type = NANOCBOR_TYPE_MAP then .enterMap s
                         else .enterArray s)) with
        | none => none
        | some (res, recurse) =>
          if res = NANOCBOR_OK then
            match asRS (rec (.skipLoop recurse (limit - 1))) with
            | none => none
            | some (res2, recurse2) =>
              match asRS (rec (.leaveContainer s recurse2)) with
              | none => none
              | some (_, s2) =>
                some (.rs (if res2 < 0 then res2 else NANOCBOR_OK) s2)
          else some (.rs (if res < 0 then res else NANOCBOR_OK) s)
      else if type = NANOCBOR_TYPE_TAG then
        let rt := _get_uint64 s NANOCBOR_SIZE_WORD NANOCBOR_TYPE_TAG
        if 0 ≤ rt.1 then
          match asRS (rec (.skipLimited { s with cur := s.cur + rt.1.toNat }
              (limit - 1))) with
          | none => none
          | some (_, s2) => some (.rs NANOCBOR_OK s2)
        else some (.rs NANOCBOR_OK s)
      else if 0 ≤ type then
        match asRS (rec (.skipSimple s)) with
        | none => none
        | some (res, s2) => some (.rs (if res < 0 then res else NANOCBOR_OK) s2)
      else some (.rs type s)
  /- The `while (!nanocbor_at_end(&recurse))` loop of `_skip_limited`. -/
  | .skipLoop recurse limit =>
    if nanocbor_at_end recurse then some (.rs NANOCBOR_OK recurse)
    else
      match asRS (rec (.skipLimited recurse limit)) with
      | none => none
      | some (res, s2) =>
        if res < 0 then some (.rs res s2)
        else rec (.skipLoop s2 limit)
  /- `_skip_simple`: skip a non-container, non-tag item. -/
  | .skipSimple s =>
    let type := __get_type s
    if type = NANOCBOR_TYPE_BSTR ∨ type = NANOCBOR_TYPE_TSTR then
      match asRStr (rec (.getStr s type)) with
      | none => none
      | some (res, _, _, s2) => some (.rs res s2)
    else
      let r := _get_uint64 s NANOCBOR_SIZE_LONG type
      let ra := _advance_if s r.1
      some (.rs (if ra.1 > 0 then NANOCBOR_OK else ra.1) ra.2)
  /- `_get_str` with the packed-handling prologue/epilogue expanded (the
  `_PACKED_HANDLE_BEGIN`/`_PACKED_HANDLE_END` macro pair): on a resolved
  packed reference the string is read from the table copy and the
  original cursor is advanced past the reference by a skip. -/
  | .getStr s type =>
    match asRS (rec (.packedHandle s (NANOCBOR_RECURSION_MAX - 1))) with
    | none => none
    | some (r, inner) =>
      if r = NANOCBOR_OK then
        let c := _get_str_core inner type
        if 0 ≤ c.1 then
          match asRS (rec (.skipLimited s (NANOCBOR_RECURSION_MAX - 1))) with
          | none => none
          | some (r2, s3) =>
            some (.rstr (if r2 ≠ NANOCBOR_OK then r2 else c.1) c.2.1 c.2.2.1 s3)
        else some (.rstr c.1 c.2.1 c.2.2.1 s)
      else if r ≠ NANOCBOR_NOT_FOUND then some (.rstr r 0 0 s)
      else
        let c := _get_str_core s type
        some (.rstr c.1 c.2.1 c.2.2.1 c.2.2.2)

/-- Run the recursive decoder core with `fuel` steps: every nested call
and loop iteration strictly decreases the fuel, and exhausted fuel is
`none`.  Defined through `Nat.rec` so that closed computations reduce in
the kernel. -/
def decodeRun : Nat → DCall → Option DRes :=
  fun fuel =>
    Nat.rec (motive := fun _ => DCall → Option DRes)
      (fun _ => none) (fun _ ih => decodeStep ih) fuel

/-- `_packed_handle` (see `decodeStep`). -/
def _packed_handle (fuel : Nat) (s : NValue) (limit : Nat) : Option (Int × NValue) :=
  asRS (decodeRun fuel (.packedHandle s limit))

/-- The common tail of `_packed_handle` (see `decodeStep`). -/
def _packed_handle_finish (fuel : Nat) (r : Int × NValue) (limit : Nat) :
    Option (Int × NValue) :=
  asRS (decodeRun fuel (.packedHandleFinish r.1 r.2 limit))

/-- `_packed_follow_reference` (see `decodeStep`). -/
def _packed_follow_reference (fuel : Nat) (s : NValue) (idx limit : Nat) :
    Option (Int × NValue) :=
  asRS (decodeRun fuel (.packedFollowReference s idx limit))

/-- The table loop of `_packed_follow_reference` (see `decodeStep`). -/
def _packed_follow_tables (fuel iters num : Nat) (s : NValue) (idx limit : Nat) :
    Option (Int × NValue) :=
  asRS (decodeRun fuel (.packedFollowTables iters num s idx limit))

/-- The element-skipping loop of `_packed_follow_reference` (see
`decodeStep`). -/
def _packed_skip_elems (fuel count : Nat) (s : NValue) (limit : Nat) :
    Option (Int × Nat × NValue) :=
  asRJS (decodeRun fuel (.packedSkipElems count s limit))

/-- `_packed_add_array_as_table` (see `decodeStep`). -/
def _packed_add_array_as_table (fuel : Nat) (s : NValue) (limit : Nat) :
    Option (Int × NValue) :=
  asRS (decodeRun fuel (.packedAddArrayAsTable s limit))

/-- `_packed_consume_table_definition_113` (see `decodeStep`). -/
def _packed_consume_table_definition_113 (fuel : Nat) (s : NValue) (limit : Nat) :
    Option (Int × NValue) :=
  asRS (decodeRun fuel (.packedConsumeTableDefinition113 s limit))

/-- `_enter_container` (see `decodeStep`). -/
def _enter_container (fuel : Nat) (it : NValue) (type : Int) :
    Option (Int × NValue) :=
  asRS (decodeRun fuel (.enterContainer it type))

/-- `nanocbor_enter_array` (see `decodeStep`). -/
def nanocbor_enter_array (fuel : Nat) (it : NValue) : Option (Int × NValue) :=
  asRS (decodeRun fuel (.enterArray it))

/-- `nanocbor_enter_map` (see `decodeStep`). -/
def nanocbor_enter_map (fuel : Nat) (it : NValue) : Option (Int × NValue) :=
  asRS (decodeRun fuel (.enterMap it))

/-- `nanocbor_leave_container` (see `decodeStep`). -/
def nanocbor_leave_container (fuel : Nat) (it container : NValue) :
    Option (Int × NValue) :=
  asRS (decodeRun fuel (.leaveContainer it container))

/-- `_skip_limited` (see `decodeStep`). -/
def _skip_limited (fuel : Nat) (s : NValue) (limit : Nat) : Option (Int × NValue) :=
  asRS (decodeRun fuel (.skipLimited s limit))

/-- The element loop of `_skip_limited` (see `decodeStep`). -/
def _skip_loop (fuel : Nat) (recurse : NValue) (limit : Nat) :
    Option (Int × NValue) :=
  asRS (decodeRun fuel (.skipLoop recurse limit))

/-- `_skip_simple` (see `decodeStep`). -/
def _skip_simple (fuel : Nat) (s : NValue) : Option (Int × NValue) :=
  asRS (decodeRun fuel (.skipSimple s))

/-- `_get_str` (see `decodeStep`): returns `(res, buf, len, state)`. -/
def _get_str (fuel : Nat) (s : NValue) (type : Int) :
    Option (Int × Nat × Nat × NValue) :=
  asRStr (decodeRun fuel (.getStr s type))

/-- `nanocbor_skip`: skip with the full recursion budget. -/
def nanocbor_skip (fuel : Nat) (s : NValue) : Option (Int × NValue) :=
  _skip_limited fuel s NANOCBOR_RECURSION_MAX

/-- `nanocbor_decoder_init_packed_table`: packed initialization with one
externally supplied table array (`table = none` models a `NULL`
`table_buf`). -/
def nanocbor_decoder_init_packed_table (fuel : Nat) (mem : List Nat)
    (buf len : Nat) (table : Option Nat) (tableLen : Nat) :
    Option (Int × NValue) :=
  let value := nanocbor_decoder_init_packed mem buf len
  match table with
  | some tb =>
    if 0 < tableLen then
      let arr := nanocbor_decoder_init_packed mem tb tableLen
      match _packed_add_array_as_table fuel arr (NANOCBOR_RECURSION_MAX - 1) with
      | none => none
      | some (ret, arr2) =>
        if ret ≠ NANOCBOR_OK then some (ret, value)
        else some (NANOCBOR_OK, _packed_copy_tables value arr2)
    else some (NANOCBOR_OK, value)
  | none => some (NANOCBOR_OK, value)

/-- Reinterpretation of a `uint64_t` bit pattern as `int64_t` (the C cast
`(int64_t)intermediate`). -/
def int64OfUInt64 (u : Nat) : Int :=
  if u % U64_MOD < 2 ^ 63 then (u % U64_MOD : Int)
  else (u % U64_MOD : Int) - (U64_MOD : Int)

/-- Truncating cast of an `int64_t` value to a `w`-bit signed integer
(the C casts `(int8_t)`, `(int16_t)`, `(int32_t)`). -/
def castSigned (w : Nat) (i : Int) : Int :=
  (i + 2 ^ (w - 1)) % (2 ^ w : Nat) - 2 ^ (w - 1)

/-- `_get_and_advance_uint8` with the packed macro pair expanded.
Returns `(res, value, state)`; note `*value = (uint8_t)tmp` is executed
unconditionally in C, so the cast value of the (caller-zeroed) temporary
is returned on every path through the function body. -/
def _get_and_advance_uint8 (fuel : Nat) (s : NValue) (type : Int) :
    Option (Int × Nat × NValue) :=
  match fuel with
  | 0 => none
  | fuel + 1 =>
    match _packed_handle fuel s (NANOCBOR_RECURSION_MAX - 1) with
    | none => none
    | some (r, inner) =>
      if r = NANOCBOR_OK then
        let g := _get_uint64 inner NANOCBOR_SIZE_BYTE type
        let ra := _advance_if inner g.1
        if 0 ≤ ra.1 then
          match _skip_limited fuel s (NANOCBOR_RECURSION_MAX - 1) with
          | none => none
          | some (r2, s3) =>
            some ((if r2 ≠ NANOCBOR_OK then r2 else ra.1), g.2 % 256, s3)
        else some (ra.1, g.2 % 256, s)
      else if r ≠ NANOCBOR_NOT_FOUND then some (r, 0, s)
      else
        let g := _get_uint64 s NANOCBOR_SIZE_BYTE type
        let ra := _advance_if s g.1
        some (ra.1, g.2 % 256, ra.2)

/-- `nanocbor_get_uint8`. -/
def nanocbor_get_uint8 (fuel : Nat) (s : NValue) : Option (Int × Nat × NValue) :=
  _get_and_advance_uint8 fuel s NANOCBOR_TYPE_UINT

/-- `_get_and_advance_uint64` with the packed macro pair expanded.
Returns `(res, value, state)`. -/
def _get_and_advance_uint64 (fuel : Nat) (s : NValue) (max : Nat) :
    Option (Int × Nat × NValue) :=
  match fuel with
  | 0 => none
  | fuel + 1 =>
    match _packed_handle fuel s (NANOCBOR_RECURSION_MAX - 1) with
    | none => none
    | some (r, inner) =>
      if r = NANOCBOR_OK then
        let g := _get_uint64 inner max NANOCBOR_TYPE_UINT
        let ra := _advance_if inner g.1
        if 0 ≤ ra.1 then
          match _skip_limited fuel s (NANOCBOR_RECURSION_MAX - 1) with
          | none => none
          | some (r2, s3) =>
            some ((if r2 ≠ NANOCBOR_OK then r2 else ra.1), g.2, s3)
        else some (ra.1, g.2, s)
      else if r ≠ NANOCBOR_NOT_FOUND then some (r, 0, s)
      else
        let g := _get_uint64 s max NANOCBOR_TYPE_UINT
        let ra := _advance_if s g.1
        some (ra.1, g.2, ra.2)

/-- `nanocbor_get_uint16`: `*value = (uint16_t)tmp`. -/
def nanocbor_get_uint16 (fuel : Nat) (s : NValue) : Option (Int × Nat × NValue) :=
  match _get_and_advance_uint64 fuel s NANOCBOR_SIZE_SHORT with
  | none => none
  | some (res, v, s2) => some (res, v % 2 ^ 16, s2)

/-- `nanocbor_get_uint32`: `*value = (uint32_t)tmp`. -/
def nanocbor_get_uint32 (fuel : Nat) (s : NValue) : Option (Int × Nat × NValue) :=
  match _get_and_advance_uint64 fuel s NANOCBOR_SIZE_WORD with
  | none => none
  | some (res, v, s2) => some (res, v % 2 ^ 32, s2)

/-- `nanocbor_get_uint64`. -/
def nanocbor_get_uint64 (fuel : Nat) (s : NValue) : Option (Int × Nat × NValue) :=
  _get_and_advance_uint64 fuel s NANOCBOR_SIZE_LONG

/-- The body of `_get_and_advance_int64` between the macro pair: accept
uint or nint majors, decode under size class `max`, flag values above
`bound` as overflow, and map nint to `-1 - u` (through the C `int64_t`
cast of the `uint64_t` temporary). -/
def _get_and_advance_int64_core (s : NValue) (max : Nat) (bound : Nat) :
    Int × Int × NValue :=
  let type := __get_type s
  if type < 0 then (type, 0, s)
  else
    let rv : Int × Int :=
      if type = NANOCBOR_TYPE_NINT ∨ type = NANOCBOR_TYPE_UINT then
        let g := _get_uint64 s max type
        let res1 := if bound < g.2 then NANOCBOR_ERR_OVERFLOW else g.1
        let v : Int :=
          if type = NANOCBOR_TYPE_NINT then -(int64OfUInt64 g.2) - 1
          else int64OfUInt64 g.2
        (res1, v)
      else (NANOCBOR_ERR_INVALID_TYPE, 0)
    let ra := _advance_if s rv.1
    (ra.1, rv.2, ra.2)

/-- `_get_and_advance_int64` with the packed macro pair expanded.
Returns `(res, value, state)`; negatives decode as `-1 - u`. -/
def _get_and_advance_int64 (fuel : Nat) (s : NValue) (max : Nat) (bound : Nat) :
    Option (Int × Int × NValue) :=
  match fuel with
  | 0 => none
  | fuel + 1 =>
    match _packed_handle fuel s (NANOCBOR_RECURSION_MAX - 1) with
    | none => none
    | some (r, inner) =>
      if r = NANOCBOR_OK then
        match _get_and_advance_int64_core inner max bound with
        | (res, v, _) =>
          if 0 ≤ res then
            match _skip_limited fuel s (NANOCBOR_RECURSION_MAX - 1) with
            | none => none
            | some (r2, s3) =>
              some ((if r2 ≠ NANOCBOR_OK then r2 else res), v, s3)
          else some (res, v, s)
      else if r ≠ NANOCBOR_NOT_FOUND then some (r, 0, s)
      else some (_get_and_advance_int64_core s max bound)

/-- `nanocbor_get_int8`. -/
def nanocbor_get_int8 (fuel : Nat) (s : NValue) : Option (Int × Int × NValue) :=
  match _get_and_advance_int64 fuel s NANOCBOR_SIZE_BYTE (2 ^ 7 - 1) with
  | none => none
  | some (res, v, s2) => some (res, castSigned 8 v, s2)

/-- `nanocbor_get_int16`. -/
def nanocbor_get_int16 (fuel : Nat) (s : NValue) : Option (Int × Int × NValue) :=
  match _get_and_advance_int64 fuel s NANOCBOR_SIZE_SHORT (2 ^ 15 - 1) with
  | none => none
  | some (res, v, s2) => some (res, castSigned 16 v, s2)

/-- `nanocbor_get_int32`. -/
def nanocbor_get_int32 (fuel : Nat) (s : NValue) : Option (Int × Int × NValue) :=
  match _get_and_advance_int64 fuel s NANOCBOR_SIZE_WORD (2 ^ 31 - 1) with
  | none => none
  | some (res, v, s2) => some (res, castSigned 32 v, s2)

/-- `nanocbor_get_int64`. -/
def nanocbor_get_int64 (fuel : Nat) (s : NValue) : Option (Int × Int × NValue) :=
  _get_and_advance_int64 fuel s NANOCBOR_SIZE_LONG (2 ^ 63 - 1)

/-- `_get_simple_exact` with the packed macro pair expanded. -/
def _get_simple_exact (fuel : Nat) (s : NValue) (val : Nat) :
    Option (Int × NValue) :=
  match fuel with
  | 0 => none
  | fuel + 1 =>
    match _packed_handle fuel s (NANOCBOR_RECURSION_MAX - 1) with
    | none => none
    | some (r, inner) =>
      if r = NANOCBOR_OK then
        let m := _value_match_exact inner val
        if 0 ≤ m.1 then
          match _skip_limited fuel s (NANOCBOR_RECURSION_MAX - 1) with
          | none => none
          | some (r2, s3) => some ((if r2 ≠ NANOCBOR_OK then r2 else m.1), s3)
        else some (m.1, s)
      else if r ≠ NANOCBOR_NOT_FOUND then some (r, s)
      else some (_value_match_exact s val)

/-- `nanocbor_get_null`. -/
def nanocbor_get_null (fuel : Nat) (s : NValue) : Option (Int × NValue) :=
  _get_simple_exact fuel s (NANOCBOR_MASK_FLOAT ||| NANOCBOR_SIMPLE_NULL)

/-- `nanocbor_get_undefined`. -/
def nanocbor_get_undefined (fuel : Nat) (s : NValue) : Option (Int × NValue) :=
  _get_simple_exact fuel s (NANOCBOR_MASK_FLOAT ||| NANOCBOR_SIMPLE_UNDEF)

/-- The body of `nanocbor_get_bool` between the macro pair: try `0xf4`
then `0xf5`; `*value` is only written on a match (the unmatched-path
output models the untouched caller variable as `false`). -/
def nanocbor_get_bool_core (s : NValue) : Int × Bool × NValue :=
  let m1 := _value_match_exact s (NANOCBOR_MASK_FLOAT ||| NANOCBOR_SIMPLE_FALSE)
  if 0 ≤ m1.1 then (m1.1, false, m1.2)
  else
    let m2 := _value_match_exact m1.2 (NANOCBOR_MASK_FLOAT ||| NANOCBOR_SIMPLE_TRUE)
    if 0 ≤ m2.1 then (m2.1, true, m2.2) else (m2.1, false, m2.2)

/-- `nanocbor_get_bool` with the packed macro pair expanded. -/
def nanocbor_get_bool (fuel : Nat) (s : NValue) : Option (Int × Bool × NValue) :=
  match fuel with
  | 0 => none
  | fuel + 1 =>
    match _packed_handle fuel s (NANOCBOR_RECURSION_MAX - 1) with
    | none => none
    | some (r, inner) =>
      if r = NANOCBOR_OK then
        match nanocbor_get_bool_core inner with
        | (res, v, _) =>
          if 0 ≤ res then
            match _skip_limited fuel s (NANOCBOR_RECURSION_MAX - 1) with
            | none => none
            | some (r2, s3) =>
              some ((if r2 ≠ NANOCBOR_OK then r2 else res), v, s3)
          else some (res, v, s)
      else if r ≠ NANOCBOR_NOT_FOUND then some (r, false, s)
      else some (nanocbor_get_bool_core s)

/-- `nanocbor_get_bstr`: returns `(res, buf, len, state)` where `buf` is
the index of the borrowed payload slice. -/
def nanocbor_get_bstr (fuel : Nat) (s : NValue) : Option (Int × Nat × Nat × NValue) :=
  _get_str fuel s NANOCBOR_TYPE_BSTR

/-- `nanocbor_get_tstr`. -/
def nanocbor_get_tstr (fuel : Nat) (s : NValue) : Option (Int × Nat × Nat × NValue) :=
  _get_str fuel s NANOCBOR_TYPE_TSTR

/-! ## Generic unfolding and arithmetic lemmas -/

/-- One step of the fueled decoder core. -/
theorem decodeRun_succ (n : Nat) (c : DCall) :
    decodeRun (n + 1) c = decodeStep (decodeRun n) c := rfl

/-- Exhausted fuel. -/
theorem decodeRun_zero (c : DCall) : decodeRun 0 c = none := rfl

theorem beBytes_length (n v : Nat) : (beBytes n v).length = n := by
  induction n generalizing v with
  | zero => rfl
  | succ k ih => simp [beBytes, ih]

theorem beBytes_getD_lt (n v k : Nat) (hk : k < n) :
    (beBytes n v).getD k 0 < 256 := by
  induction n generalizing v k with
  | zero => omega
  | succ m ih =>
    rcases Nat.lt_or_ge k m with h | h
    · rw [beBytes, List.getD_append _ _ _ _ (by simp [beBytes_length, h])]
      exact ih (v / 256) k h
    · have hk' : k = m := by omega
      subst hk'
      rw [beBytes, List.getD_eq_getElem?_getD, List.getElem?_append_right (by simp [beBytes_length])]
      simp [beBytes_length]
      omega

theorem beBytes_getD_eq (n v k : Nat) (hk : k < n) :
    (beBytes (n + 1) v).getD k 0 = (beBytes n (v / 256)).getD k 0 := by
  rw [beBytes, List.getD_append _ _ _ _ (by simp [beBytes_length, hk])]

/-- Reading back a big-endian byte list gives the value modulo the
width. -/
theorem readBE_beBytes (n : Nat) (s : NValue) (start v : Nat)
    (h : ∀ k, k < n → readByte s (start + k) = (beBytes n v).getD k 0) :
    readBE s start n = v % 2 ^ (8 * n) := by
  induction n generalizing v with
  | zero => simp [readBE, Nat.mod_one]
  | succ m ih =>
    have hlast : readByte s (start + m) = v % 256 := by
      rw [h m (by omega)]
      rw [beBytes, List.getD_eq_getElem?_getD,
        List.getElem?_append_right (by simp [beBytes_length])]
      simp [beBytes_length]
    have hrec : readBE s start m = v / 256 % 2 ^ (8 * m) := by
      apply ih (v / 256)
      intro k hk
      rw [h k (by omega)]
      exact beBytes_getD_eq m v k hk
    rw [readBE, hrec, hlast]
    have hpow : 2 ^ (8 * (m + 1)) = 2 ^ (8 * m) * 256 := by
      rw [Nat.mul_succ, pow_add]
      norm_num
    rw [hpow, Nat.mul_comm (2 ^ (8 * m)) 256, Nat.mod_mul]
    ring

/-! ## C1 -/

/-- C1: counterexample evidence.  The claim states that every successful
getter leaves `cur ≤ end` and reads no byte at or beyond `end`.  But the
length check of `_get_str` (`(size_t)(end - cur) < *len`) forgets the
head bytes: on the one-byte buffer `[0x41]` (a definite byte string head
declaring one payload byte, with no payload present),
`nanocbor_get_bstr` succeeds with `NANOCBOR_OK`, hands out the payload
slice `[1, 2)` which lies entirely at and beyond `end = 1`, and leaves
the cursor at `cur = 2 > end = 1`. -/
theorem claim_C1 :
    nanocbor_get_bstr 5 (nanocbor_decoder_init [0x41] 0 1) =
      some (NANOCBOR_OK, 1, 1,
        { mem := [0x41], cur := 2, endp := 1, remaining := U64_MOD - 1, flags := 0,
          tables := List.replicate NANOCBOR_DECODE_PACKED_NESTED_TABLES_MAX (none, 0),
          numTables := 0 }) := by decide

/-! ## C2 -/

/-- C2: counterexample.  The claim says argument info 28/29/30 fails
with an `INVALID` code distinct from `OVERFLOW`; the code has no such
code in its error enum and returns `NANOCBOR_ERR_OVERFLOW` (here for the
head byte `0x1c`, uint major with argument info 28). -/
theorem claim_C2_counterexample :
    nanocbor_get_uint64 5 (nanocbor_decoder_init [0x1C] 0 1) =
      some (NANOCBOR_ERR_OVERFLOW, 0, nanocbor_decoder_init [0x1C] 0 1)
    ∧ NANOCBOR_ERR_OVERFLOW ≠ NANOCBOR_ERR_INVALID_TYPE := by decide

/-- C2 (amended): for every decoder head decode of a numeric argument
whose low-5-bit argument info is 28, 29 or 30 (and a size-class bound of
at most `NANOCBOR_SIZE_LONG`, as at every call site), `_get_uint64`
fails with `NANOCBOR_ERR_OVERFLOW`. -/
theorem claim_C2 (s : NValue) (max : Nat) (type : Int)
    (h1 : nanocbor_at_end s = false)
    (h2 : readByte s s.cur &&& NANOCBOR_VALUE_MASK = 28
        ∨ readByte s s.cur &&& NANOCBOR_VALUE_MASK = 29
        ∨ readByte s s.cur &&& NANOCBOR_VALUE_MASK = 30)
    (h3 : type = __get_type s) (h4 : max ≤ NANOCBOR_SIZE_LONG) :
    _get_uint64 s max type = (NANOCBOR_ERR_OVERFLOW, 0) := by
  have hty : ¬ (__get_type s < 0) := by
    rw [__get_type, if_neg (by simp [h1])]
    exact Int.not_lt.mpr (Int.natCast_nonneg _)
  rw [_get_uint64]
  simp only [if_neg hty, h3]
  rw [if_neg (by simp)]
  rcases h2 with h | h | h <;>
    rw [h] <;>
    rw [if_neg (by decide), if_pos (by simp [NANOCBOR_SIZE_LONG] at h4 ⊢; omega)]

/-- Witness for C2 at the concrete head byte `0x1c`. -/
theorem claim_C2_witness :
    _get_uint64 (nanocbor_decoder_init [0x1C] 0 1) NANOCBOR_SIZE_LONG 0 =
      (NANOCBOR_ERR_OVERFLOW, 0) :=
  claim_C2 (nanocbor_decoder_init [0x1C] 0 1) NANOCBOR_SIZE_LONG 0
    (by decide) (Or.inl (by decide)) (by decide) (by decide)

/-! ## C7 -/

/-- The parent cursor of the C7 counterexample: inside the indefinite
array of `[0x9f, 0x80, 0xff]` (so `remaining = 0`). -/
def pC7 : NValue :=
  { mem := [0x9F, 0x80, 0xFF], cur := 1, endp := 3, remaining := 0, flags := 3,
    tables := List.replicate NANOCBOR_DECODE_PACKED_NESTED_TABLES_MAX (none, 0),
    numTables := 0 }

/-- The child cursor of the C7 counterexample: the entered (empty,
definite) inner array, already at its end. -/
def cC7 : NValue := { pC7 with cur := 2, flags := 1 }

/-- C7: counterexample.  The claim says that on the non-`SHARED` success
path the parent's `remaining` is decremented.  The code only decrements
a *nonzero* `remaining` (`if (it->remaining) it->remaining--`): leaving
the empty definite array `0x80` back into the enclosing indefinite
array (where `remaining = 0`) succeeds and leaves `remaining` at `0`
(neither `2^64 - 1` as a wrapping decrement nor an error). -/
theorem claim_C7_counterexample :
    nanocbor_enter_array 5 (nanocbor_decoder_init [0x9F, 0x80, 0xFF] 0 3) =
      some (NANOCBOR_OK, pC7)
    ∧ nanocbor_enter_array 5 pC7 = some (NANOCBOR_OK, cC7)
    ∧ nanocbor_in_container cC7 = true ∧ nanocbor_at_end cC7 = true
    ∧ pC7.remaining = 0
    ∧ nanocbor_leave_container 5 pC7 cC7 = some (NANOCBOR_OK, { pC7 with cur := 2 }) := by
  decide

/-- C7 (amended): `nanocbor_leave_container` fails with `INVALID_TYPE`
if the child is not flagged as a container or is not at its end; a
`SHARED` child makes the parent skip past the reference bytes under a
fresh `NANOCBOR_RECURSION_MAX` budget; otherwise it fails with
`INVALID_TYPE` when the child's `cur` does not lie strictly ahead of the
parent's (or lies beyond the parent's `end`), and on success sets the
parent's `cur` to the child's `cur` (plus one for the `0xff` break of an
indefinite child) and decrements the parent's `remaining` *when it is
nonzero*. -/
theorem claim_C7 (fuel : Nat) (it container : NValue) :
    (¬(nanocbor_in_container container = true ∧ nanocbor_at_end container = true) →
      nanocbor_leave_container (fuel + 1) it container =
        some (NANOCBOR_ERR_INVALID_TYPE, it))
    ∧ (nanocbor_in_container container = true → nanocbor_at_end container = true →
        container.flags &&& NANOCBOR_DECODER_FLAG_SHARED ≠ 0 →
        nanocbor_leave_container (fuel + 1) it container =
          _skip_limited fuel it NANOCBOR_RECURSION_MAX)
    ∧ (nanocbor_in_container container = true → nanocbor_at_end container = true →
        container.flags &&& NANOCBOR_DECODER_FLAG_SHARED = 0 →
        (container.cur ≤ it.cur ∨ it.endp < container.cur) →
        nanocbor_leave_container (fuel + 1) it container =
          some (NANOCBOR_ERR_INVALID_TYPE, it))
    ∧ (nanocbor_in_container container = true → nanocbor_at_end container = true →
        container.flags &&& NANOCBOR_DECODER_FLAG_SHARED = 0 →
        it.cur < container.cur → container.cur ≤ it.endp →
        nanocbor_leave_container (fuel + 1) it container =
          some (NANOCBOR_OK,
            { it with
              remaining := if it.remaining ≠ 0 then it.remaining - 1 else it.remaining
              cur := if nanocbor_container_indefinite container then container.cur + 1
                     else container.cur })) := by
  refine ⟨?_, ?_, ?_, ?_⟩
  · intro h
    have hcond : (!nanocbor_in_container container || !nanocbor_at_end container) = true := by
      by_cases hc : nanocbor_in_container container = true
      · by_cases he : nanocbor_at_end container = true
        · exact absurd ⟨hc, he⟩ h
        · simp [Bool.not_eq_true] at he
          simp [he]
      · simp [Bool.not_eq_true] at hc
        simp [hc]
    show asRS (decodeStep (decodeRun fuel) (.leaveContainer it container)) = _
    rw [decodeStep, if_pos hcond]
    rfl
  · intro hc he hsh
    show asRS (decodeStep (decodeRun fuel) (.leaveContainer it container)) = _
    rw [decodeStep, if_neg (by simp [hc, he]), if_pos hsh]
    rfl
  · intro hc he hsh hord
    show asRS (decodeStep (decodeRun fuel) (.leaveContainer it container)) = _
    rw [decodeStep, if_neg (by simp [hc, he]), if_neg (by simp [hsh]),
      if_pos (by rcases hord with h | h <;> simp [h])]
    rfl
  · intro hc he hsh hlt hle
    show asRS (decodeStep (decodeRun fuel) (.leaveContainer it container)) = _
    rw [decodeStep, if_neg (by simp [hc, he]), if_neg (by simp [hsh]),
      if_neg (by simp; omega)]
    by_cases hr : it.remaining ≠ 0
    · rw [if_pos hr]
      simp [asRS, if_pos hr]
    · rw [if_neg hr]
      simp at hr
      simp [asRS, hr]

/-- Witness for C7 on the success branch at the concrete parent/child of
the counterexample input. -/
theorem claim_C7_witness :
    nanocbor_leave_container 5 pC7 cC7 = some (NANOCBOR_OK, { pC7 with cur := 2 }) := by
  have h := (claim_C7 4 pC7 cC7).2.2.2 (by decide) (by decide) (by decide)
    (by decide) (by decide)
  rw [h]
  decide

/-! ## C8 -/

/-- The non-termination input for C8: an array containing an array
containing the truncated byte-string head `0x41`. -/
def mem81 : List Nat := [0x81, 0x81, 0x41]

/-- The child cursor after entering the outer array of `mem81`. -/
def r81 : NValue :=
  { mem := mem81, cur := 1, endp := 3, remaining := 1, flags := 1,
    tables := List.replicate NANOCBOR_DECODE_PACKED_NESTED_TABLES_MAX (none, 0),
    numTables := 0 }

/-- Skipping the inner array of `mem81` either runs out of model fuel
or reports success *without moving the cursor*: the truncated
byte-string head makes the innermost cursor overshoot `end`,
`leave_container` refuses to rejoin, and its result is discarded by
`_skip_limited`. -/
theorem skip81_inner (f : Nat) :
    _skip_limited f r81 7 = none ∨ _skip_limited f r81 7 = some (NANOCBOR_OK, r81) := by
  match f with
  | 0 => exact Or.inl (by decide)
  | 1 => exact Or.inl (by decide)
  | 2 => exact Or.inl (by decide)
  | 3 => exact Or.inl (by decide)
  | 4 => exact Or.inl (by decide)
  | 5 => exact Or.inl (by decide)
  | m + 6 => exact Or.inr rfl

/-- The element loop of the outer skip over `mem81` therefore never
finishes, whatever the fuel. -/
theorem skip81_loop (f : Nat) : _skip_loop f r81 7 = none := by
  induction f with
  | zero => rfl
  | succ n ih =>
    show asRS (decodeStep (decodeRun n) (.skipLoop r81 7)) = none
    rw [decodeStep, if_neg (by decide)]
    rcases skip81_inner n with h | h <;> rw [_skip_limited] at h <;> rw [h]
    · rfl
    · show asRS (if (NANOCBOR_OK : Int) < 0 then some (DRes.rs NANOCBOR_OK r81)
        else decodeRun n (DCall.skipLoop r81 7)) = none
      rw [if_neg (by decide)]
      exact ih

/-- C8: the claim is falsified in both directions by the code.  First
conjunct: `nanocbor_skip` over `[0x81, 0x81, 0x41]` never terminates —
no amount of model fuel completes it, because the inner skip returns
success without advancing and the `while (!nanocbor_at_end(&recurse))`
loop state repeats exactly.  Second conjunct: on eight nested tags
`[0xc0 × 8, 0x00]` the recursion budget is exhausted, yet
`nanocbor_skip` reports `NANOCBOR_OK` rather than
`NANOCBOR_ERR_RECURSION`, because the tag branch of `_skip_limited`
declares a shadowing `res` and discards the inner error. -/
theorem claim_C8 :
    (∀ fuel, nanocbor_skip fuel (nanocbor_decoder_init mem81 0 3) = none)
    ∧ nanocbor_skip 100
        (nanocbor_decoder_init [0xC0, 0xC0, 0xC0, 0xC0, 0xC0, 0xC0, 0xC0, 0xC0, 0x00] 0 9) =
      some (NANOCBOR_OK,
        { mem := [0xC0, 0xC0, 0xC0, 0xC0, 0xC0, 0xC0, 0xC0, 0xC0, 0x00],
          cur := 8, endp := 9, remaining := 0, flags := 0,
          tables := List.replicate NANOCBOR_DECODE_PACKED_NESTED_TABLES_MAX (none, 0),
          numTables := 0 }) := by
  constructor
  · intro fuel
    match fuel with
    | 0 => decide
    | 1 => decide
    | 2 => decide
    | m + 3 =>
      show asRS (decodeStep (decodeRun (m + 2))
        (.skipLimited (nanocbor_decoder_init mem81 0 3) 8)) = none
      rw [decodeStep, if_neg (by decide), if_pos (by decide),
        if_neg (show ¬(__get_type (nanocbor_decoder_init mem81 0 3) = NANOCBOR_TYPE_MAP)
          from by decide)]
      have henter : asRS (decodeRun (m + 2)
          (.enterArray (nanocbor_decoder_init mem81 0 3))) = some (NANOCBOR_OK, r81) := rfl
      rw [henter]
      show asRS (if (NANOCBOR_OK : Int) = NANOCBOR_OK then
          (match asRS (decodeRun (m + 2) (DCall.skipLoop r81 (8 - 1))) with
          | none => none
          | some (res2, recurse2) =>
            match asRS (decodeRun (m + 2)
                (DCall.leaveContainer (nanocbor_decoder_init mem81 0 3) recurse2)) with
            | none => none
            | some (_, s2) => some (DRes.rs (if res2 < 0 then res2 else NANOCBOR_OK) s2))
        else some (DRes.rs (if (NANOCBOR_OK : Int) < 0 then NANOCBOR_OK else NANOCBOR_OK)
          (nanocbor_decoder_init mem81 0 3))) = none
      rw [if_pos rfl]
      have hloop := skip81_loop (m + 2)
      rw [_skip_loop] at hloop
      rw [show (8 : Nat) - 1 = 7 from rfl, hloop]
      rfl
  · decide

/-! ## C10 -/

/-- With packed support disabled, the packed-handling prologue finds
nothing and leaves the cursor alone. -/
theorem packed_handle_disabled (g : Nat) (s : NValue) (limit : Nat)
    (hp : _packed_enabled s = false) :
    _packed_handle (g + 1) s limit = some (NANOCBOR_NOT_FOUND, s) := by
  show asRS (decodeStep (decodeRun g) (.packedHandle s limit)) = _
  rw [decodeStep, if_pos (by simp [hp])]
  rfl

/-- `_packed_handle` with no fuel. -/
theorem packed_handle_zero (s : NValue) (limit : Nat) :
    _packed_handle 0 s limit = none := rfl

/-- `_value_match_exact` has exactly three result shapes. -/
theorem value_match_shape (s : NValue) (val : Nat) :
    _value_match_exact s val = (NANOCBOR_ERR_END, s)
    ∨ _value_match_exact s val = (NANOCBOR_OK, _advance s 1)
    ∨ _value_match_exact s val = (NANOCBOR_ERR_INVALID_TYPE, s) := by
  rw [_value_match_exact]
  split_ifs <;> simp

/-- The bare body of `nanocbor_get_bool` leaves the state alone when it
reports `INVALID_TYPE`. -/
theorem get_bool_core_invalid (s : NValue) (r : Int) (b : Bool) (s' : NValue)
    (heq : nanocbor_get_bool_core s = (r, b, s'))
    (hr : r = NANOCBOR_ERR_INVALID_TYPE) : s' = s := by
  rw [nanocbor_get_bool_core] at heq
  rcases value_match_shape s (NANOCBOR_MASK_FLOAT ||| NANOCBOR_SIMPLE_FALSE)
    with h1 | h1 | h1 <;> rw [h1] at heq <;> dsimp only [] at heq
  · rw [if_neg (by decide)] at heq
    rcases value_match_shape s (NANOCBOR_MASK_FLOAT ||| NANOCBOR_SIMPLE_TRUE)
      with h2 | h2 | h2 <;> rw [h2] at heq <;> dsimp only [] at heq <;>
      [rw [if_neg (by decide)] at heq; rw [if_pos (by decide)] at heq;
        rw [if_neg (by decide)] at heq] <;>
      simp only [Prod.mk.injEq] at heq <;>
      obtain ⟨e1, _, e3⟩ := heq <;> subst hr <;>
      first
        | exact absurd e1 (by decide)
        | exact e3.symm
  · rw [if_pos (by decide)] at heq
    simp only [Prod.mk.injEq] at heq
    subst hr
    exact absurd heq.1 (by decide)
  · rw [if_neg (by decide)] at heq
    rcases value_match_shape s (NANOCBOR_MASK_FLOAT ||| NANOCBOR_SIMPLE_TRUE)
      with h2 | h2 | h2 <;> rw [h2] at heq <;> dsimp only [] at heq <;>
      [rw [if_neg (by decide)] at heq; rw [if_pos (by decide)] at heq;
        rw [if_neg (by decide)] at heq] <;>
      simp only [Prod.mk.injEq] at heq <;>
      obtain ⟨e1, _, e3⟩ := heq <;> subst hr <;>
      first
        | exact absurd e1 (by decide)
        | exact e3.symm

/-- C10: atomicity of the exact-match getters.  On a cursor without
packed support, whenever `nanocbor_get_null`, `nanocbor_get_undefined`
or `nanocbor_get_bool` returns `NANOCBOR_ERR_INVALID_TYPE`, the cursor
is returned exactly as it was (`cur`, `end`, `remaining`, `flags`,
tables — the whole state). -/
theorem claim_C10 (fuel : Nat) (s : NValue) (hp : _packed_enabled s = false) :
    (∀ r s', nanocbor_get_null fuel s = some (r, s') →
      r = NANOCBOR_ERR_INVALID_TYPE → s' = s)
    ∧ (∀ r s', nanocbor_get_undefined fuel s = some (r, s') →
        r = NANOCBOR_ERR_INVALID_TYPE → s' = s)
    ∧ (∀ r b s', nanocbor_get_bool fuel s = some (r, b, s') →
        r = NANOCBOR_ERR_INVALID_TYPE → s' = s) := by
  have hsimple : ∀ val r s', _get_simple_exact fuel s val = some (r, s') →
      r = NANOCBOR_ERR_INVALID_TYPE → s' = s := by
    intro val r s' heq hr
    match fuel with
    | 0 => simp [_get_simple_exact] at heq
    | g + 1 =>
      rw [_get_simple_exact] at heq
      match g with
      | 0 => rw [packed_handle_zero] at heq; simp at heq
      | h + 1 =>
        rw [packed_handle_disabled h s _ hp] at heq
        dsimp only [] at heq
        rw [if_neg (show ¬(NANOCBOR_NOT_FOUND = NANOCBOR_OK) from by decide),
          if_neg (by simp)] at heq
        rw [_value_match_exact] at heq
        split_ifs at heq with h1 h2
        · simp at heq
          subst hr
          simp [NANOCBOR_ERR_END, NANOCBOR_ERR_INVALID_TYPE] at heq
        · simp at heq
          subst hr
          simp [NANOCBOR_OK, NANOCBOR_ERR_INVALID_TYPE] at heq
        · simp at heq
          exact heq.2.symm
  refine ⟨fun r s' => hsimple _ r s', fun r s' => hsimple _ r s', ?_⟩
  intro r b s' heq hr
  match fuel with
  | 0 => simp [nanocbor_get_bool] at heq
  | g + 1 =>
    rw [nanocbor_get_bool] at heq
    match g with
    | 0 => rw [packed_handle_zero] at heq; simp at heq
    | h + 1 =>
      rw [packed_handle_disabled h s _ hp] at heq
      dsimp only [] at heq
      rw [if_neg (show ¬(NANOCBOR_NOT_FOUND = NANOCBOR_OK) from by decide),
        if_neg (by simp)] at heq
      simp only [Option.some.injEq] at heq
      exact get_bool_core_invalid s r b s' heq hr

/-- Witness for C10: `nanocbor_get_null` on the uint item `0x00` fails
with `INVALID_TYPE` and returns the cursor unchanged. -/
theorem claim_C10_witness :
    nanocbor_get_null 5 (nanocbor_decoder_init [0x00] 0 1) =
      some (NANOCBOR_ERR_INVALID_TYPE, nanocbor_decoder_init [0x00] 0 1) := by
  have heval : nanocbor_get_null 5 (nanocbor_decoder_init [0x00] 0 1) =
      some (NANOCBOR_ERR_INVALID_TYPE, nanocbor_decoder_init [0x00] 0 1) := by decide
  have hatom := (claim_C10 5 (nanocbor_decoder_init [0x00] 0 1) (by decide)).1
    NANOCBOR_ERR_INVALID_TYPE (nanocbor_decoder_init [0x00] 0 1) heval rfl
  exact hatom ▸ heval

/-! ## C4 -/

/-- Full characterization of `_fmt_uint64` on a sink with room: the
five smallest-head cases. -/
theorem fmt_uint64_spec (e : NEncoder) (major num : Nat)
    (hroom : e.written.length + 9 ≤ e.cap) :
    (num < 24 → _fmt_uint64 e num (major * 32) =
      (1, { e with len := (e.len + 1) % U64_MOD,
                   written := e.written ++ [major * 32 ||| num] }))
    ∧ (24 ≤ num → num ≤ 0xFF → _fmt_uint64 e num (major * 32) =
      (2, { e with len := (e.len + 2) % U64_MOD,
                   written := e.written
                     ++ (major * 32 ||| NANOCBOR_SIZE_BYTE) :: beBytes 1 num }))
    ∧ (0xFF < num → num ≤ 0xFFFF → _fmt_uint64 e num (major * 32) =
      (3, { e with len := (e.len + 3) % U64_MOD,
                   written := e.written
                     ++ (major * 32 ||| NANOCBOR_SIZE_SHORT) :: beBytes 2 num }))
    ∧ (0xFFFF < num → num ≤ 0xFFFFFFFF → _fmt_uint64 e num (major * 32) =
      (5, { e with len := (e.len + 5) % U64_MOD,
                   written := e.written
                     ++ (major * 32 ||| NANOCBOR_SIZE_WORD) :: beBytes 4 num }))
    ∧ (0xFFFFFFFF < num → _fmt_uint64 e num (major * 32) =
      (9, { e with len := (e.len + 9) % U64_MOD,
                   written := e.written
                     ++ (major * 32 ||| NANOCBOR_SIZE_LONG) :: beBytes 8 num })) := by
  have hfits : ∀ k, k ≤ 9 → 0 < k →
      _fits (_incr_len e k) k = (k : Int) := by
    intro k hk hk0
    rw [_fits, if_pos]
    simp only [_encoder_mem_fits, _incr_len, decide_eq_true_eq]
    omega
  refine ⟨fun h1 => ?_, fun h1 h2 => ?_, fun h1 h2 => ?_, fun h1 h2 => ?_,
    fun h1 => ?_⟩
  · simp only [_fmt_uint64, NANOCBOR_SIZE_BYTE,
      if_pos (show num < 24 from h1)]
    rw [hfits 1 (by omega) (by omega)]
    rw [if_pos (by decide)]
    simp [_incr_len, _encoder_mem_append, beBytes]
  · simp only [_fmt_uint64, NANOCBOR_SIZE_BYTE,
      if_neg (show ¬(num < 24) from by omega),
      if_neg (show ¬(0xFFFFFFFF < num) from by omega),
      if_neg (show ¬(0xFFFF < num) from by omega),
      if_neg (show ¬(0xFF < num) from by omega)]
    rw [hfits 2 (by omega) (by omega)]
    rw [if_pos (by decide)]
    simp [_incr_len, _encoder_mem_append, beBytes]
  · simp only [_fmt_uint64, NANOCBOR_SIZE_BYTE, NANOCBOR_SIZE_SHORT,
      if_neg (show ¬(num < 24) from by omega),
      if_neg (show ¬(0xFFFFFFFF < num) from by omega),
      if_neg (show ¬(0xFFFF < num) from by omega),
      if_pos (show 0xFF < num from h1)]
    rw [hfits 3 (by omega) (by omega)]
    rw [if_pos (by decide)]
    simp [_incr_len, _encoder_mem_append, beBytes]
  · simp only [_fmt_uint64, NANOCBOR_SIZE_BYTE, NANOCBOR_SIZE_WORD,
      if_neg (show ¬(num < 24) from by omega),
      if_neg (show ¬(0xFFFFFFFF < num) from by omega),
      if_pos (show 0xFFFF < num from h1)]
    rw [hfits 5 (by omega) (by omega)]
    rw [if_pos (by decide)]
    simp [_incr_len, _encoder_mem_append, beBytes]
  · simp only [_fmt_uint64, NANOCBOR_SIZE_BYTE, NANOCBOR_SIZE_LONG,
      if_neg (show ¬(num < 24) from by omega),
      if_pos (show 0xFFFFFFFF < num from h1)]
    rw [hfits 9 (by omega) (by omega)]
    rw [if_pos (by decide)]
    simp [_incr_len, _encoder_mem_append, beBytes]

/-- C4: the head formatter emits the smallest legal head: values `0..23`
give a 1-byte head with the value folded into the initial byte,
`24..255` a 2-byte head with size class 24, `256..65535` a 3-byte head
with size class 25, `65536..2^32 - 1` a 5-byte head with size class 26,
and larger values a 9-byte head with size class 27, the argument
appended big-endian after the initial byte `major << 5 ||| class`
(stated for a sink with room, so the bytes are actually emitted). -/
theorem claim_C4 (e : NEncoder) (major num : Nat)
    (hroom : e.written.length + 9 ≤ e.cap) :
    (num < 24 → _fmt_uint64 e num (major * 32) =
      (1, { e with len := (e.len + 1) % U64_MOD,
                   written := e.written ++ [major * 32 ||| num] }))
    ∧ (24 ≤ num → num ≤ 0xFF → _fmt_uint64 e num (major * 32) =
      (2, { e with len := (e.len + 2) % U64_MOD,
                   written := e.written
                     ++ (major * 32 ||| NANOCBOR_SIZE_BYTE) :: beBytes 1 num }))
    ∧ (0xFF < num → num ≤ 0xFFFF → _fmt_uint64 e num (major * 32) =
      (3, { e with len := (e.len + 3) % U64_MOD,
                   written := e.written
                     ++ (major * 32 ||| NANOCBOR_SIZE_SHORT) :: beBytes 2 num }))
    ∧ (0xFFFF < num → num ≤ 0xFFFFFFFF → _fmt_uint64 e num (major * 32) =
      (5, { e with len := (e.len + 5) % U64_MOD,
                   written := e.written
                     ++ (major * 32 ||| NANOCBOR_SIZE_WORD) :: beBytes 4 num }))
    ∧ (0xFFFFFFFF < num → _fmt_uint64 e num (major * 32) =
      (9, { e with len := (e.len + 9) % U64_MOD,
                   written := e.written
                     ++ (major * 32 ||| NANOCBOR_SIZE_LONG) :: beBytes 8 num })) :=
  fmt_uint64_spec e major num hroom

/-- Witness for C4 at `major = 0`, `num = 1000` into a 9-byte buffer. -/
theorem claim_C4_witness :
    _fmt_uint64 (nanocbor_encoder_init 9) 1000 (0 * 32) =
      (3, { nanocbor_encoder_init 9 with
            len := (0 + 3) % U64_MOD,
            written := [] ++ (0 * 32 ||| NANOCBOR_SIZE_SHORT) :: beBytes 2 1000 }) :=
  (claim_C4 (nanocbor_encoder_init 9) 0 1000 (by decide)).2.2.1 (by decide) (by decide)

/-! ## C3 -/

/-- Masking the initial byte extracts the argument info. -/
theorem and_value_mask (n : Nat) : n &&& NANOCBOR_VALUE_MASK = n % 32 :=
  Nat.and_pow_two_sub_one_eq_mod n 5

/-- Decoding a fresh cursor over an immediate (`ai < 24`) head. -/
theorem get_uint64_imm (k v len : Nat) (hk : k < 8) (hv : v < 24) (hlen : 0 < len)
    (rest : List Nat) (max : Nat) :
    __get_type (nanocbor_decoder_init ((k * 32 + v) :: rest) 0 len) = (k : Int)
    ∧ _get_uint64 (nanocbor_decoder_init ((k * 32 + v) :: rest) 0 len) max (k : Int) =
      (1, v) := by
  have hbyte : readByte (nanocbor_decoder_init ((k * 32 + v) :: rest) 0 len) 0
      = k * 32 + v := by
    simp only [readByte, nanocbor_decoder_init, List.getD_cons_zero]
    omega
  have hend : nanocbor_at_end (nanocbor_decoder_init ((k * 32 + v) :: rest) 0 len)
      = false := by
    simp [nanocbor_at_end, _over_end, nanocbor_decoder_init,
      nanocbor_container_indefinite, nanocbor_in_container,
      NANOCBOR_DECODER_FLAG_CONTAINER, NANOCBOR_DECODER_FLAG_INDEFINITE]
    omega
  have htype : __get_type (nanocbor_decoder_init ((k * 32 + v) :: rest) 0 len)
      = (k : Int) := by
    rw [__get_type, if_neg (by simp [hend])]
    simp only [nanocbor_decoder_init] at hbyte ⊢
    rw [hbyte]
    congr 1
    omega
  refine ⟨htype, ?_⟩
  rw [_get_uint64, htype]
  rw [if_neg (by exact Int.not_lt.mpr (Int.natCast_nonneg k)), if_neg (by simp)]
  simp only [nanocbor_decoder_init] at hbyte ⊢
  rw [hbyte, and_value_mask]
  rw [if_pos (by simp [NANOCBOR_SIZE_BYTE]; omega)]
  congr 1
  omega

/-- Decoding a cursor over a multi-byte head with size class `24 + c`
holding the big-endian argument `v`, with arbitrary trailing bytes and
buffer length. -/
theorem get_uint64_multi (k c v len : Nat) (rest : List Nat) (hk : k < 8) (hc : c ≤ 3)
    (hv : v < 2 ^ (8 * 2 ^ c)) (hlen : 2 ^ c < len) (max : Nat) (hmax : 24 + c ≤ max) :
    __get_type
      (nanocbor_decoder_init ((k * 32 + (24 + c)) :: (beBytes (2 ^ c) v ++ rest)) 0 len)
      = (k : Int)
    ∧ _get_uint64
      (nanocbor_decoder_init ((k * 32 + (24 + c)) :: (beBytes (2 ^ c) v ++ rest)) 0 len)
      max (k : Int) = (((1 + 2 ^ c : Nat) : Int), v) := by
  set s := nanocbor_decoder_init ((k * 32 + (24 + c)) :: (beBytes (2 ^ c) v ++ rest)) 0 len
    with hs
  have hbyte : readByte s 0 = k * 32 + (24 + c) := by
    simp only [hs, readByte, nanocbor_decoder_init, List.getD_cons_zero]
    omega
  have hind : nanocbor_container_indefinite s = false := by
    simp [nanocbor_container_indefinite, hs, nanocbor_decoder_init,
      NANOCBOR_DECODER_FLAG_CONTAINER, NANOCBOR_DECODER_FLAG_INDEFINITE,
      show (2 ||| 1 : Nat) = 3 from rfl]
  have hin : nanocbor_in_container s = false := by
    simp [nanocbor_in_container, hs, nanocbor_decoder_init,
      NANOCBOR_DECODER_FLAG_CONTAINER]
  have hover : _over_end s = false := by
    rw [_over_end]
    have h1 : s.endp = 0 + len := rfl
    have h2 : s.cur = 0 := rfl
    rw [h1, h2]
    simp only [Nat.zero_add, decide_eq_false_iff_not]
    exact Nat.not_le.mpr (Nat.lt_of_le_of_lt (Nat.zero_le _) hlen)
  have hend : nanocbor_at_end s = false := by
    rw [nanocbor_at_end, hind, hover, hin]
    simp
  have hcur : s.cur = 0 := rfl
  have htype : __get_type s = (k : Int) := by
    rw [__get_type, if_neg (by simp [hend])]
    rw [hcur, hbyte]
    congr 1
    omega
  refine ⟨htype, ?_⟩
  rw [_get_uint64, htype]
  rw [if_neg (by exact Int.not_lt.mpr (Int.natCast_nonneg k)), if_neg (by simp)]
  rw [hcur, hbyte, and_value_mask]
  have hmod : (k * 32 + (24 + c)) % 32 = 24 + c := by omega
  rw [hmod]
  rw [if_neg (by simp only [NANOCBOR_SIZE_BYTE]; omega), if_neg (by omega)]
  have hsub : 24 + c - NANOCBOR_SIZE_BYTE = c := by
    simp [NANOCBOR_SIZE_BYTE]
  rw [hsub]
  simp only [Nat.zero_add]
  rw [if_neg (show ¬(s.endp ≤ 2 ^ c) from by
    simp only [hs, nanocbor_decoder_init]
    omega)]
  have hread : readBE s 1 (2 ^ c) = v := by
    rw [readBE_beBytes (2 ^ c) s 1 v]
    · exact Nat.mod_eq_of_lt hv
    · intro j hj
      have hget : s.mem.getD (1 + j) 0 = (beBytes (2 ^ c) v).getD j 0 := by
        simp only [hs, nanocbor_decoder_init]
        rw [show (1 + j) = (j + 1) from by omega, List.getD_cons_succ]
        exact List.getD_append _ _ _ _ (by simp [beBytes_length, hj])
      rw [readByte, hget, Nat.mod_eq_of_lt (beBytes_getD_lt _ v j hj)]
  rw [hread]
  norm_cast

/-- Writing a value below 32 into the low bits of a multiple of 32 is
plain addition. -/
theorem mul32_lor (k r : Nat) (hr : r < 32) : k * 32 ||| r = k * 32 + r := by
  have h32 : k * 32 = 2 ^ 5 * k := by ring
  apply Nat.eq_of_testBit_eq
  intro i
  rw [Nat.testBit_lor, h32, Nat.testBit_mul_pow_two_add k (show r < 2 ^ 5 from hr) i,
    Nat.testBit_mul_pow_two]
  rcases Nat.lt_or_ge i 5 with h | h
  · rw [if_pos h]
    simp [show ¬(i ≥ 5) from by omega]
  · rw [if_neg (by omega)]
    have hrb : r.testBit i = false :=
      Nat.testBit_lt_two_pow (by
        calc r < 2 ^ 5 := hr
          _ ≤ 2 ^ i := Nat.pow_le_pow_right (by norm_num) h)
    simp [h, hrb]

/-- The `int64_t` view of a small `uint64_t` is itself. -/
theorem int64OfUInt64_small (u : Nat) (h : u < 2 ^ 63) : int64OfUInt64 u = u := by
  rw [int64OfUInt64]
  have hm : u % U64_MOD = u := Nat.mod_eq_of_lt (by simp [U64_MOD]; omega)
  rw [if_pos (by rw [hm]; exact h), ← Int.natCast_mod, hm]

/-- With packed support disabled, `_get_and_advance_uint64` reduces to
its bare body. -/
theorem gau64_unpacked (g : Nat) (s : NValue) (max : Nat)
    (hp : _packed_enabled s = false) :
    _get_and_advance_uint64 (g + 2) s max =
      some ((_advance_if s (_get_uint64 s max NANOCBOR_TYPE_UINT).1).1,
        (_get_uint64 s max NANOCBOR_TYPE_UINT).2,
        (_advance_if s (_get_uint64 s max NANOCBOR_TYPE_UINT).1).2) := by
  rw [_get_and_advance_uint64]
  rw [packed_handle_disabled g s _ hp]
  dsimp only []
  rw [if_neg (by decide), if_neg (by simp)]

/-- With packed support disabled, `_get_and_advance_int64` reduces to
its bare body. -/
theorem gai64_unpacked (g : Nat) (s : NValue) (max bound : Nat)
    (hp : _packed_enabled s = false) :
    _get_and_advance_int64 (g + 2) s max bound =
      some (_get_and_advance_int64_core s max bound) := by
  rw [_get_and_advance_int64]
  rw [packed_handle_disabled g s _ hp]
  dsimp only []
  rw [if_neg (by decide), if_neg (by simp)]

/-- Decoding the head that `_fmt_uint64` just wrote (fresh cursor over
exactly the emitted bytes) recovers the major type, the value, and a
byte count equal to the encoder's return value. -/
theorem decode_encoded_head (cap k v : Nat) (hcap : 9 ≤ cap) (hk : k < 8)
    (hv : v < U64_MOD) :
    __get_type (nanocbor_decoder_init
        (_fmt_uint64 (nanocbor_encoder_init cap) v (k * 32)).2.written 0
        (_fmt_uint64 (nanocbor_encoder_init cap) v (k * 32)).2.written.length)
      = (k : Int)
    ∧ _get_uint64 (nanocbor_decoder_init
        (_fmt_uint64 (nanocbor_encoder_init cap) v (k * 32)).2.written 0
        (_fmt_uint64 (nanocbor_encoder_init cap) v (k * 32)).2.written.length)
        NANOCBOR_SIZE_LONG (k : Int)
      = ((_fmt_uint64 (nanocbor_encoder_init cap) v (k * 32)).1, v)
    ∧ 0 < (_fmt_uint64 (nanocbor_encoder_init cap) v (k * 32)).1 := by
  have hroom : (nanocbor_encoder_init cap).written.length + 9
      ≤ (nanocbor_encoder_init cap).cap := by
    simp [nanocbor_encoder_init]
    omega
  have hspec := fmt_uint64_spec (nanocbor_encoder_init cap) k v hroom
  rcases Nat.lt_or_ge v 24 with h1 | h1
  · rw [hspec.1 h1, mul32_lor k v (by omega)]
    have h := get_uint64_imm k v 1 hk h1 (by norm_num) [] NANOCBOR_SIZE_LONG
    exact ⟨h.1, h.2, by norm_num⟩
  · rcases Nat.lt_or_ge 0xFF v with h2 | h2
    · rcases Nat.lt_or_ge 0xFFFF v with h3 | h3
      · rcases Nat.lt_or_ge 0xFFFFFFFF v with h4 | h4
        · rw [hspec.2.2.2.2 h4, mul32_lor k NANOCBOR_SIZE_LONG (by decide)]
          have h := get_uint64_multi k 3 v 9 [] hk (by decide)
            (by rw [show (2 : Nat) ^ (8 * 2 ^ 3) = U64_MOD from by
                  norm_num [U64_MOD]]
                exact hv)
            (by decide) NANOCBOR_SIZE_LONG (by decide)
          exact ⟨h.1, h.2, by norm_num⟩
        · rw [hspec.2.2.2.1 h3 h4, mul32_lor k NANOCBOR_SIZE_WORD (by decide)]
          have h := get_uint64_multi k 2 v 5 [] hk (by decide)
            (by norm_num; omega) (by decide) NANOCBOR_SIZE_LONG (by decide)
          exact ⟨h.1, h.2, by norm_num⟩
      · rw [hspec.2.2.1 h2 h3, mul32_lor k NANOCBOR_SIZE_SHORT (by decide)]
        have h := get_uint64_multi k 1 v 3 [] hk (by decide)
          (by norm_num; omega) (by decide) NANOCBOR_SIZE_LONG (by decide)
        exact ⟨h.1, h.2, by norm_num⟩
    · rw [hspec.2.1 h1 h2, mul32_lor k NANOCBOR_SIZE_BYTE (by decide)]
      have h := get_uint64_multi k 0 v 2 [] hk (by decide)
        (by norm_num; omega) (by decide) NANOCBOR_SIZE_LONG (by decide)
      exact ⟨h.1, h.2, by norm_num⟩

/-- The result code passed to `_advance_if` is returned unchanged. -/
theorem advance_if_fst (s : NValue) (r : Int) : (_advance_if s r).1 = r := by
  rw [_advance_if]
  split <;> rfl

/-- A freshly initialized decoder has packed support disabled. -/
theorem packed_disabled_init (mem : List Nat) (b l : Nat) :
    _packed_enabled (nanocbor_decoder_init mem b l) = false := by
  simp [_packed_enabled, nanocbor_decoder_init]

/-- Round trip for `uint64`: decoding a freshly encoded unsigned value
returns the encoder's byte count and the original value. -/
theorem roundtrip_uint (f cap v : Nat) (hcap : 9 ≤ cap) (hv : v < U64_MOD) :
    (nanocbor_get_uint64 (f + 2) (nanocbor_decoder_init
        (nanocbor_fmt_uint (nanocbor_encoder_init cap) v).2.written 0
        (nanocbor_fmt_uint (nanocbor_encoder_init cap) v).2.written.length)).map
        (fun t => (t.1, t.2.1))
      = some ((nanocbor_fmt_uint (nanocbor_encoder_init cap) v).1, v) := by
  have h := decode_encoded_head cap 0 v hcap (by norm_num) hv
  rw [show (0 : Nat) * 32 = NANOCBOR_MASK_UINT from by
    norm_num [NANOCBOR_MASK_UINT]] at h
  norm_num at h
  simp only [nanocbor_fmt_uint, nanocbor_get_uint64]
  rw [gau64_unpacked f _ NANOCBOR_SIZE_LONG (packed_disabled_init _ _ _)]
  have hg : _get_uint64 (nanocbor_decoder_init
      (_fmt_uint64 (nanocbor_encoder_init cap) v NANOCBOR_MASK_UINT).2.written 0
      (_fmt_uint64 (nanocbor_encoder_init cap) v NANOCBOR_MASK_UINT).2.written.length)
      NANOCBOR_SIZE_LONG NANOCBOR_TYPE_UINT
      = ((_fmt_uint64 (nanocbor_encoder_init cap) v NANOCBOR_MASK_UINT).1, v) := by
    rw [show NANOCBOR_TYPE_UINT = ((0 : Nat) : Int) from by
      norm_num [NANOCBOR_TYPE_UINT]]
    norm_num
    exact h.2.1
  rw [hg]
  dsimp only []
  rw [advance_if_fst]
  rfl

/-- Round trip for `int64`: decoding a freshly encoded signed value
returns the encoder's byte count and the original value. -/
theorem roundtrip_int (f cap : Nat) (i : Int) (hcap : 9 ≤ cap)
    (hlo : -(2 ^ 63) ≤ i) (hhi : i < 2 ^ 63) :
    (nanocbor_get_int64 (f + 2) (nanocbor_decoder_init
        (nanocbor_fmt_int (nanocbor_encoder_init cap) i).2.written 0
        (nanocbor_fmt_int (nanocbor_encoder_init cap) i).2.written.length)).map
        (fun t => (t.1, t.2.1))
      = some ((nanocbor_fmt_int (nanocbor_encoder_init cap) i).1, i) := by
  rcases Int.lt_or_le i 0 with hneg | hpos
  · rw [nanocbor_fmt_int, if_pos hneg, nanocbor_get_int64]
    set u := (-(i + 1)).toNat with hudef
    have hu64 : u < 2 ^ 63 := by omega
    have hv64 : u < U64_MOD := by
      have hlt : (2 : Nat) ^ 63 < U64_MOD := by norm_num [U64_MOD]
      omega
    have h := decode_encoded_head cap 1 u hcap (by norm_num) hv64
    rw [show (1 : Nat) * 32 = NANOCBOR_MASK_NINT from by
      norm_num [NANOCBOR_MASK_NINT]] at h
    norm_num at h
    rw [gai64_unpacked f _ _ _ (packed_disabled_init _ _ _)]
    rw [_get_and_advance_int64_core, h.1]
    norm_num [NANOCBOR_TYPE_NINT, NANOCBOR_TYPE_UINT]
    rw [h.2.1]
    dsimp only []
    rw [if_neg (show ¬ (9223372036854775807 < u) from by omega)]
    rw [advance_if_fst, int64OfUInt64_small u hu64]
    exact ⟨rfl, by omega⟩
  · rw [nanocbor_fmt_int, if_neg (by omega : ¬ i < 0), nanocbor_fmt_uint,
      nanocbor_get_int64]
    set u := i.toNat with hudef
    have hu64 : u < 2 ^ 63 := by omega
    have hv64 : u < U64_MOD := by
      have hlt : (2 : Nat) ^ 63 < U64_MOD := by norm_num [U64_MOD]
      omega
    have h := decode_encoded_head cap 0 u hcap (by norm_num) hv64
    rw [show (0 : Nat) * 32 = NANOCBOR_MASK_UINT from by
      norm_num [NANOCBOR_MASK_UINT]] at h
    norm_num at h
    rw [gai64_unpacked f _ _ _ (packed_disabled_init _ _ _)]
    rw [_get_and_advance_int64_core, h.1]
    norm_num [NANOCBOR_TYPE_NINT, NANOCBOR_TYPE_UINT]
    rw [h.2.1]
    dsimp only []
    rw [if_neg (show ¬ (9223372036854775807 < u) from by omega)]
    rw [advance_if_fst, int64OfUInt64_small u hu64]
    exact ⟨rfl, by omega⟩

/-- C3: round trip — for every uint64 value `v`, encoding with
`nanocbor_fmt_uint` into a sufficiently large buffer and decoding the
emitted bytes with `nanocbor_get_uint64` on a fresh cursor yields `v`
again, with the decoder's byte count equal to the encoder's reported
length; likewise for every int64 value via `nanocbor_fmt_int` /
`nanocbor_get_int64` (negatives travelling as `-1 - u` in the nint
major). -/
theorem claim_C3 (f cap : Nat) (hcap : 9 ≤ cap) :
    (∀ v : Nat, v < U64_MOD →
      (nanocbor_get_uint64 (f + 2) (nanocbor_decoder_init
          (nanocbor_fmt_uint (nanocbor_encoder_init cap) v).2.written 0
          (nanocbor_fmt_uint (nanocbor_encoder_init cap) v).2.written.length)).map
          (fun t => (t.1, t.2.1))
        = some ((nanocbor_fmt_uint (nanocbor_encoder_init cap) v).1, v))
    ∧ (∀ i : Int, -(2 ^ 63) ≤ i → i < 2 ^ 63 →
      (nanocbor_get_int64 (f + 2) (nanocbor_decoder_init
          (nanocbor_fmt_int (nanocbor_encoder_init cap) i).2.written 0
          (nanocbor_fmt_int (nanocbor_encoder_init cap) i).2.written.length)).map
          (fun t => (t.1, t.2.1))
        = some ((nanocbor_fmt_int (nanocbor_encoder_init cap) i).1, i)) :=
  ⟨fun v hv => roundtrip_uint f cap v hcap hv,
   fun i hlo hhi => roundtrip_int f cap i hcap hlo hhi⟩

/-- Witness for C3 at `cap = 9`, `v = 1000`, `i = -1000`. -/
theorem claim_C3_witness :
    (9 ≤ 9
    ∧ (nanocbor_get_uint64 3 (nanocbor_decoder_init
          (nanocbor_fmt_uint (nanocbor_encoder_init 9) 1000).2.written 0
          (nanocbor_fmt_uint (nanocbor_encoder_init 9) 1000).2.written.length)).map
          (fun t => (t.1, t.2.1))
        = some ((nanocbor_fmt_uint (nanocbor_encoder_init 9) 1000).1, 1000))
    ∧ (nanocbor_get_int64 3 (nanocbor_decoder_init
          (nanocbor_fmt_int (nanocbor_encoder_init 9) (-1000)).2.written 0
          (nanocbor_fmt_int (nanocbor_encoder_init 9) (-1000)).2.written.length)).map
          (fun t => (t.1, t.2.1))
        = some ((nanocbor_fmt_int (nanocbor_encoder_init 9) (-1000)).1, -1000) :=
  ⟨⟨by norm_num,
    (claim_C3 1 9 (by norm_num)).1 1000 (by norm_num [U64_MOD])⟩,
   (claim_C3 1 9 (by norm_num)).2 (-1000) (by norm_num) (by norm_num)⟩

/-- A dereferenced byte is below 256. -/
theorem readByte_lt (s : NValue) (i : Nat) : readByte s i < 256 :=
  Nat.mod_lt _ (by norm_num)

/-- A big-endian read of `n` bytes is below `2 ^ (8 n)`. -/
theorem readBE_lt (s : NValue) (start n : Nat) : readBE s start n < 2 ^ (8 * n) := by
  induction n with
  | zero => simp [readBE]
  | succ n ih =>
    rw [readBE]
    have hb := readByte_lt s (start + n)
    have hstep : readBE s start n * 256 + readByte s (start + n)
        < 2 ^ (8 * n) * 256 := by
      have h1 : readBE s start n * 256 + readByte s (start + n)
          < (readBE s start n + 1) * 256 := by ring_nf; omega
      have h2 : (readBE s start n + 1) * 256 ≤ 2 ^ (8 * n) * 256 :=
        Nat.mul_le_mul_right _ (by omega)
      omega
    have h3 : (2 : Nat) ^ (8 * n) * 256 = 2 ^ (8 * (n + 1)) := by
      rw [show 8 * (n + 1) = 8 * n + 8 from by ring, pow_add]
      norm_num
    omega

/-- Head decode with an immediate (`< 24`) argument succeeds for every
size-class limit. -/
theorem get_uint64_eval_imm (s : NValue) (max : Nat) (type : Int)
    (hge : 0 ≤ __get_type s) (hty : type = __get_type s)
    (hbl : readByte s s.cur &&& NANOCBOR_VALUE_MASK < NANOCBOR_SIZE_BYTE) :
    _get_uint64 s max type
      = (1, readByte s s.cur &&& NANOCBOR_VALUE_MASK) := by
  simp only [_get_uint64]
  rw [if_neg (by omega), if_neg (not_not_intro hty), if_pos hbl]

/-- Head decode of a multi-byte argument within the size-class limit and
the buffer. -/
theorem get_uint64_eval_multi (s : NValue) (max : Nat) (type : Int)
    (hge : 0 ≤ __get_type s) (hty : type = __get_type s)
    (hbl : NANOCBOR_SIZE_BYTE ≤ readByte s s.cur &&& NANOCBOR_VALUE_MASK)
    (hmax : readByte s s.cur &&& NANOCBOR_VALUE_MASK ≤ max)
    (hend : s.cur
        + 2 ^ ((readByte s s.cur &&& NANOCBOR_VALUE_MASK) - NANOCBOR_SIZE_BYTE)
      < s.endp) :
    _get_uint64 s max type
      = (1 + ((2 ^ ((readByte s s.cur &&& NANOCBOR_VALUE_MASK)
            - NANOCBOR_SIZE_BYTE) : Nat) : Int),
         readBE s (s.cur + 1)
           (2 ^ ((readByte s s.cur &&& NANOCBOR_VALUE_MASK) - NANOCBOR_SIZE_BYTE))) := by
  simp only [_get_uint64]
  rw [if_neg (by omega), if_neg (not_not_intro hty), if_neg (by omega),
    if_neg (by omega), if_neg (by omega)]

/-- Head decode of an argument whose size class exceeds the limit fails
with `OVERFLOW`. -/
theorem get_uint64_eval_overflow (s : NValue) (max : Nat) (type : Int)
    (hge : 0 ≤ __get_type s) (hty : type = __get_type s)
    (hbl : NANOCBOR_SIZE_BYTE ≤ readByte s s.cur &&& NANOCBOR_VALUE_MASK)
    (hmax : max < readByte s s.cur &&& NANOCBOR_VALUE_MASK) :
    _get_uint64 s max type = (NANOCBOR_ERR_OVERFLOW, 0) := by
  simp only [_get_uint64]
  rw [if_neg (by omega), if_neg (not_not_intro hty), if_neg (by omega),
    if_pos hmax]

/-- A wrong major type at the cursor fails with `INVALID_TYPE` for every
size-class limit. -/
theorem get_uint64_wrong_type (s : NValue) (max : Nat) (type ct : Int)
    (hct : __get_type s = ct) (hge : 0 ≤ ct) (hne : type ≠ ct) :
    _get_uint64 s max type = (NANOCBOR_ERR_INVALID_TYPE, 0) := by
  simp only [_get_uint64, hct]
  rw [if_neg (by omega), if_pos hne]

/-- Successful head decodes factor through one of the two success
branches of `_get_uint64`, and pin down the major type. -/
theorem get_uint64_success_shape (s : NValue) (max : Nat) (type : Int)
    (r : Int) (u : Nat) (h : _get_uint64 s max type = (r, u)) (hr : 0 < r) :
    0 ≤ __get_type s ∧ type = __get_type s
    ∧ ((readByte s s.cur &&& NANOCBOR_VALUE_MASK < NANOCBOR_SIZE_BYTE
        ∧ r = 1 ∧ u = readByte s s.cur &&& NANOCBOR_VALUE_MASK)
      ∨ (NANOCBOR_SIZE_BYTE ≤ readByte s s.cur &&& NANOCBOR_VALUE_MASK
        ∧ readByte s s.cur &&& NANOCBOR_VALUE_MASK ≤ max
        ∧ r = 1 + ((2 ^ ((readByte s s.cur &&& NANOCBOR_VALUE_MASK)
            - NANOCBOR_SIZE_BYTE) : Nat) : Int)
        ∧ u = readBE s (s.cur + 1)
            (2 ^ ((readByte s s.cur &&& NANOCBOR_VALUE_MASK)
              - NANOCBOR_SIZE_BYTE))
        ∧ s.cur + 2 ^ ((readByte s s.cur &&& NANOCBOR_VALUE_MASK)
            - NANOCBOR_SIZE_BYTE) < s.endp)) := by
  simp only [_get_uint64] at h
  split at h
  · rename_i h0
    injection h with h1 h2
    omega
  · rename_i h0
    split at h
    · injection h with h1 h2
      rw [← h1] at hr
      norm_num [NANOCBOR_ERR_INVALID_TYPE] at hr
    · rename_i hty
      have htyeq : type = __get_type s := not_not.mp hty
      split at h
      · rename_i hbl
        injection h with h1 h2
        exact ⟨by omega, htyeq, Or.inl ⟨hbl, h1.symm, h2.symm⟩⟩
      · rename_i hbl
        split at h
        · injection h with h1 h2
          rw [← h1] at hr
          norm_num [NANOCBOR_ERR_OVERFLOW] at hr
        · rename_i hmax
          split at h
          · injection h with h1 h2
            rw [← h1] at hr
            norm_num [NANOCBOR_ERR_END] at hr
          · rename_i hend
            injection h with h1 h2
            exact ⟨by omega, htyeq,
              Or.inr ⟨by omega, by omega, h1.symm, h2.symm, by omega⟩⟩

/-- A successful head decode under size-class limit `24 + c` yields a
value below `2 ^ (8 · 2^c)`. -/
theorem get_uint64_success_lt (s : NValue) (max c : Nat) (type : Int)
    (r : Int) (u : Nat) (h : _get_uint64 s max type = (r, u)) (hr : 0 < r)
    (hmax : max ≤ 24 + c) : u < 2 ^ (8 * 2 ^ c) := by
  obtain ⟨hge, hty, hcase⟩ := get_uint64_success_shape s max type r u h hr
  have hsb : NANOCBOR_SIZE_BYTE = 24 := rfl
  have h256 : (256 : Nat) ≤ 2 ^ (8 * 2 ^ c) := by
    calc (256 : Nat) = 2 ^ 8 := by norm_num
      _ ≤ 2 ^ (8 * 2 ^ c) := Nat.pow_le_pow_right (by norm_num)
          (by have := Nat.two_pow_pos c; omega)
  rcases hcase with ⟨hbl, hr1, hu'⟩ | ⟨hbl, hblmax, hr1, hu', hend⟩
  · omega
  · have hexp : (readByte s s.cur &&& NANOCBOR_VALUE_MASK)
        - NANOCBOR_SIZE_BYTE ≤ c := by omega
    have hle : (2 : Nat) ^ (8 * 2 ^ ((readByte s s.cur &&& NANOCBOR_VALUE_MASK)
          - NANOCBOR_SIZE_BYTE)) ≤ 2 ^ (8 * 2 ^ c) := by
      apply Nat.pow_le_pow_right (by norm_num)
      have := Nat.pow_le_pow_right (show 1 ≤ 2 by norm_num) hexp
      omega
    have := readBE_lt s (s.cur + 1)
      (2 ^ ((readByte s s.cur &&& NANOCBOR_VALUE_MASK) - NANOCBOR_SIZE_BYTE))
    omega

/-- A head that decoded successfully under one size-class limit either
decodes identically under a smaller limit or overflows there. -/
theorem get_uint64_mono (s : NValue) (maxS maxL : Nat) (type : Int) (r : Int)
    (u : Nat) (h : _get_uint64 s maxL type = (r, u)) (hr : 0 < r) :
    _get_uint64 s maxS type = (r, u)
    ∨ _get_uint64 s maxS type = (NANOCBOR_ERR_OVERFLOW, 0) := by
  obtain ⟨hge, hty, hcase⟩ := get_uint64_success_shape s maxL type r u h hr
  rcases hcase with ⟨hbl, hr1, hu'⟩ | ⟨hbl, hblmax, hr1, hu', hend⟩
  · left
    rw [get_uint64_eval_imm s maxS type hge hty hbl, hr1, hu']
  · rcases Nat.lt_or_ge maxS (readByte s s.cur &&& NANOCBOR_VALUE_MASK)
      with hm | hm
    · right
      exact get_uint64_eval_overflow s maxS type hge hty hbl hm
    · left
      rw [get_uint64_eval_multi s maxS type hge hty hbl hm hend, hr1, hu']

/-- If the decoded value does not fit in `8 · 2^c` bits, decoding the
same head under size-class limit at most `24 + c` overflows. -/
theorem get_uint64_small_overflow (s : NValue) (maxS maxL c : Nat)
    (type : Int) (r : Int) (u : Nat) (h : _get_uint64 s maxL type = (r, u))
    (hr : 0 < r) (hu : 2 ^ (8 * 2 ^ c) ≤ u) (hmax : maxS ≤ 24 + c) :
    _get_uint64 s maxS type = (NANOCBOR_ERR_OVERFLOW, 0) := by
  rcases get_uint64_mono s maxS maxL type r u h hr with hS | hS
  · exfalso
    have := get_uint64_success_lt s maxS c type r u hS hr hmax
    omega
  · exact hS

/-- `castSigned` is the identity on values inside the signed range. -/
theorem castSigned_id (w : Nat) (i : Int) (hw : 1 ≤ w)
    (hlo : -(2 ^ (w - 1)) ≤ i) (hhi : i < 2 ^ (w - 1)) :
    castSigned w i = i := by
  rw [castSigned]
  have hcast : (((2 : Nat) ^ w : Nat) : Int) = 2 ^ (w - 1) * 2 := by
    push_cast
    rw [← pow_succ]
    congr 1
    omega
  rw [hcast]
  generalize hP : ((2 : Int) ^ (w - 1)) = P at hlo hhi ⊢
  have hP0 : 0 < P := hP ▸ pow_pos (by norm_num) _
  rw [Int.emod_eq_of_lt (by omega) (by omega)]
  omega

/-- With packed support disabled, `_get_and_advance_uint8` reduces to
its bare body. -/
theorem gau8_unpacked (g : Nat) (s : NValue) (type : Int)
    (hp : _packed_enabled s = false) :
    _get_and_advance_uint8 (g + 2) s type =
      some ((_advance_if s (_get_uint64 s NANOCBOR_SIZE_BYTE type).1).1,
        (_get_uint64 s NANOCBOR_SIZE_BYTE type).2 % 256,
        (_advance_if s (_get_uint64 s NANOCBOR_SIZE_BYTE type).1).2) := by
  rw [_get_and_advance_uint8]
  rw [packed_handle_disabled g s _ hp]
  dsimp only []
  rw [if_neg (by decide), if_neg (by simp)]

/-- `_get_and_advance_int64_core` on a non-integer major fails with
`INVALID_TYPE` and leaves the cursor in place. -/
theorem gai64_core_wrong (s : NValue) (max bound k : Nat)
    (hct : __get_type s = (k : Int)) (hk : 2 ≤ k) :
    _get_and_advance_int64_core s max bound
      = (NANOCBOR_ERR_INVALID_TYPE, 0, s) := by
  simp only [_get_and_advance_int64_core, hct]
  rw [if_neg (by omega)]
  rw [if_neg (show ¬(((k : Nat) : Int) = NANOCBOR_TYPE_NINT
      ∨ ((k : Nat) : Int) = NANOCBOR_TYPE_UINT) from by
    simp only [NANOCBOR_TYPE_NINT, NANOCBOR_TYPE_UINT]
    omega)]
  dsimp only []
  rw [_advance_if, if_neg (by norm_num [NANOCBOR_ERR_INVALID_TYPE])]

/-- `_get_and_advance_int64_core` reports `OVERFLOW` whenever the head's
argument decodes (under the permissive limit) to a value above `bound`:
either the size class already overflows the narrow limit, or the bound
check fires. -/
theorem gai64_core_overflow (s : NValue) (maxS maxL bound k : Nat) (r : Int)
    (u : Nat) (hct : __get_type s = (k : Int)) (hk : k ≤ 1)
    (hL : _get_uint64 s maxL (k : Int) = (r, u)) (hr : 0 < r)
    (hbound : bound < u) :
    (_get_and_advance_int64_core s maxS bound).1 = NANOCBOR_ERR_OVERFLOW := by
  have hmono := get_uint64_mono s maxS maxL _ r u hL hr
  simp only [_get_and_advance_int64_core, hct]
  rw [if_neg (by omega)]
  rw [if_pos (show ((k : Nat) : Int) = NANOCBOR_TYPE_NINT
      ∨ ((k : Nat) : Int) = NANOCBOR_TYPE_UINT from by
    simp only [NANOCBOR_TYPE_NINT, NANOCBOR_TYPE_UINT]
    omega)]
  rcases hmono with hS | hS <;> rw [hS] <;> dsimp only []
  · rw [if_pos hbound, _advance_if,
      if_neg (by norm_num [NANOCBOR_ERR_OVERFLOW])]
  · rw [if_neg (by omega), _advance_if,
      if_neg (by norm_num [NANOCBOR_ERR_OVERFLOW])]

/-- `_get_and_advance_int64_core` on an in-range integer succeeds with
the exact signed value and advances past the head. -/
theorem gai64_core_success (s : NValue) (max bound k : Nat) (r : Int)
    (u : Nat) (hct : __get_type s = (k : Int)) (hk : k ≤ 1)
    (hS : _get_uint64 s max (k : Int) = (r, u)) (hr : 0 < r)
    (hbound : u ≤ bound) (hu63 : u < 2 ^ 63) :
    _get_and_advance_int64_core s max bound
      = (r, (if k = 1 then -1 - (u : Int) else (u : Int)),
         _advance s r.toNat) := by
  simp only [_get_and_advance_int64_core, hct]
  rw [if_neg (by omega)]
  rw [if_pos (show ((k : Nat) : Int) = NANOCBOR_TYPE_NINT
      ∨ ((k : Nat) : Int) = NANOCBOR_TYPE_UINT from by
    simp only [NANOCBOR_TYPE_NINT, NANOCBOR_TYPE_UINT]
    omega)]
  rw [hS]
  dsimp only []
  rw [if_neg (by omega)]
  rw [int64OfUInt64_small u hu63]
  interval_cases k
  · rw [if_neg (by norm_num [NANOCBOR_TYPE_NINT]), if_neg (by norm_num)]
    rw [_advance_if, if_pos (show r > 0 from hr)]
  · rw [if_pos (by norm_num [NANOCBOR_TYPE_NINT]), if_pos (by norm_num)]
    rw [_advance_if, if_pos (show r > 0 from hr)]
    rw [show -(u : Int) - 1 = -1 - (u : Int) from by ring]

/-- Wrong-major failure of the four unsigned width getters. -/
theorem c6_uint_wrong (g : Nat) (s : NValue) (hp : _packed_enabled s = false)
    (k : Nat) (hct : __get_type s = (k : Int)) (hk : 1 ≤ k) :
    (nanocbor_get_uint8 (g + 2) s).map (fun t => t.1)
        = some NANOCBOR_ERR_INVALID_TYPE
    ∧ (nanocbor_get_uint16 (g + 2) s).map (fun t => t.1)
        = some NANOCBOR_ERR_INVALID_TYPE
    ∧ (nanocbor_get_uint32 (g + 2) s).map (fun t => t.1)
        = some NANOCBOR_ERR_INVALID_TYPE
    ∧ (nanocbor_get_uint64 (g + 2) s).map (fun t => t.1)
        = some NANOCBOR_ERR_INVALID_TYPE := by
  have hw : ∀ max : Nat, _get_uint64 s max NANOCBOR_TYPE_UINT
      = (NANOCBOR_ERR_INVALID_TYPE, 0) := fun max =>
    get_uint64_wrong_type s max _ _ hct (by omega)
      (by simp only [NANOCBOR_TYPE_UINT]; omega)
  refine ⟨?_, ?_, ?_, ?_⟩
  · rw [nanocbor_get_uint8, gau8_unpacked g s _ hp, hw NANOCBOR_SIZE_BYTE]
    simp [advance_if_fst]
  · rw [nanocbor_get_uint16, gau64_unpacked g s _ hp, hw NANOCBOR_SIZE_SHORT]
    simp [advance_if_fst]
  · rw [nanocbor_get_uint32, gau64_unpacked g s _ hp, hw NANOCBOR_SIZE_WORD]
    simp [advance_if_fst]
  · rw [nanocbor_get_uint64, gau64_unpacked g s _ hp, hw NANOCBOR_SIZE_LONG]
    simp [advance_if_fst]

/-- Wrong-major failure of the four signed width getters. -/
theorem c6_int_wrong (g : Nat) (s : NValue) (hp : _packed_enabled s = false)
    (k : Nat) (hct : __get_type s = (k : Int)) (hk : 2 ≤ k) :
    (nanocbor_get_int8 (g + 2) s).map (fun t => t.1)
        = some NANOCBOR_ERR_INVALID_TYPE
    ∧ (nanocbor_get_int16 (g + 2) s).map (fun t => t.1)
        = some NANOCBOR_ERR_INVALID_TYPE
    ∧ (nanocbor_get_int32 (g + 2) s).map (fun t => t.1)
        = some NANOCBOR_ERR_INVALID_TYPE
    ∧ (nanocbor_get_int64 (g + 2) s).map (fun t => t.1)
        = some NANOCBOR_ERR_INVALID_TYPE := by
  have hw := gai64_core_wrong s
  refine ⟨?_, ?_, ?_, ?_⟩
  · rw [nanocbor_get_int8, gai64_unpacked g s _ _ hp,
      hw NANOCBOR_SIZE_BYTE (2 ^ 7 - 1) k hct hk]
    simp
  · rw [nanocbor_get_int16, gai64_unpacked g s _ _ hp,
      hw NANOCBOR_SIZE_SHORT (2 ^ 15 - 1) k hct hk]
    simp
  · rw [nanocbor_get_int32, gai64_unpacked g s _ _ hp,
      hw NANOCBOR_SIZE_WORD (2 ^ 31 - 1) k hct hk]
    simp
  · rw [nanocbor_get_int64, gai64_unpacked g s _ _ hp,
      hw NANOCBOR_SIZE_LONG (2 ^ 63 - 1) k hct hk]
    simp

/-- Width-overflow failure of the narrow unsigned getters: a uint head
whose argument does not fit the destination width overflows. -/
theorem c6_uint_overflow (g : Nat) (s : NValue)
    (hp : _packed_enabled s = false) (r : Int) (u : Nat)
    (hL : _get_uint64 s NANOCBOR_SIZE_LONG NANOCBOR_TYPE_UINT = (r, u))
    (hr : 0 < r) :
    (2 ^ 8 ≤ u → (nanocbor_get_uint8 (g + 2) s).map (fun t => t.1)
        = some NANOCBOR_ERR_OVERFLOW)
    ∧ (2 ^ 16 ≤ u → (nanocbor_get_uint16 (g + 2) s).map (fun t => t.1)
        = some NANOCBOR_ERR_OVERFLOW)
    ∧ (2 ^ 32 ≤ u → (nanocbor_get_uint32 (g + 2) s).map (fun t => t.1)
        = some NANOCBOR_ERR_OVERFLOW) := by
  refine ⟨fun h8 => ?_, fun h16 => ?_, fun h32 => ?_⟩
  · have hS := get_uint64_small_overflow s NANOCBOR_SIZE_BYTE
      NANOCBOR_SIZE_LONG 0 _ r u hL hr (by simpa using h8)
      (by norm_num [NANOCBOR_SIZE_BYTE])
    rw [nanocbor_get_uint8, gau8_unpacked g s _ hp, hS]
    simp [advance_if_fst]
  · have hS := get_uint64_small_overflow s NANOCBOR_SIZE_SHORT
      NANOCBOR_SIZE_LONG 1 _ r u hL hr (by simpa using h16)
      (by norm_num [NANOCBOR_SIZE_SHORT])
    rw [nanocbor_get_uint16, gau64_unpacked g s _ hp, hS]
    simp [advance_if_fst]
  · have hS := get_uint64_small_overflow s NANOCBOR_SIZE_WORD
      NANOCBOR_SIZE_LONG 2 _ r u hL hr (by simpa using h32)
      (by norm_num [NANOCBOR_SIZE_WORD])
    rw [nanocbor_get_uint32, gau64_unpacked g s _ hp, hS]
    simp [advance_if_fst]

/-- Range-overflow failure of the signed getters: an integer head whose
decoded value falls outside the destination's signed range (for either
major, this is `2^(w-1) ≤ u` on the raw argument) overflows. -/
theorem c6_int_overflow (g : Nat) (s : NValue)
    (hp : _packed_enabled s = false) (k : Nat) (r : Int) (u : Nat)
    (hct : __get_type s = (k : Int)) (hk : k ≤ 1)
    (hL : _get_uint64 s NANOCBOR_SIZE_LONG ((k : Nat) : Int) = (r, u))
    (hr : 0 < r) :
    (2 ^ 7 ≤ u → (nanocbor_get_int8 (g + 2) s).map (fun t => t.1)
        = some NANOCBOR_ERR_OVERFLOW)
    ∧ (2 ^ 15 ≤ u → (nanocbor_get_int16 (g + 2) s).map (fun t => t.1)
        = some NANOCBOR_ERR_OVERFLOW)
    ∧ (2 ^ 31 ≤ u → (nanocbor_get_int32 (g + 2) s).map (fun t => t.1)
        = some NANOCBOR_ERR_OVERFLOW)
    ∧ (2 ^ 63 ≤ u → (nanocbor_get_int64 (g + 2) s).map (fun t => t.1)
        = some NANOCBOR_ERR_OVERFLOW) := by
  refine ⟨fun h7 => ?_, fun h15 => ?_, fun h31 => ?_, fun h63 => ?_⟩
  · have hov := gai64_core_overflow s NANOCBOR_SIZE_BYTE NANOCBOR_SIZE_LONG
      (2 ^ 7 - 1) k r u hct hk hL hr (lt_of_lt_of_le (by norm_num) h7)
    rw [nanocbor_get_int8, gai64_unpacked g s _ _ hp]
    rcases hc : _get_and_advance_int64_core s NANOCBOR_SIZE_BYTE (2 ^ 7 - 1)
      with ⟨res, v, s2⟩
    rw [hc] at hov
    dsimp only [] at hov
    subst hov
    simp
  · have hov := gai64_core_overflow s NANOCBOR_SIZE_SHORT NANOCBOR_SIZE_LONG
      (2 ^ 15 - 1) k r u hct hk hL hr (lt_of_lt_of_le (by norm_num) h15)
    rw [nanocbor_get_int16, gai64_unpacked g s _ _ hp]
    rcases hc : _get_and_advance_int64_core s NANOCBOR_SIZE_SHORT (2 ^ 15 - 1)
      with ⟨res, v, s2⟩
    rw [hc] at hov
    dsimp only [] at hov
    subst hov
    simp
  · have hov := gai64_core_overflow s NANOCBOR_SIZE_WORD NANOCBOR_SIZE_LONG
      (2 ^ 31 - 1) k r u hct hk hL hr (lt_of_lt_of_le (by norm_num) h31)
    rw [nanocbor_get_int32, gai64_unpacked g s _ _ hp]
    rcases hc : _get_and_advance_int64_core s NANOCBOR_SIZE_WORD (2 ^ 31 - 1)
      with ⟨res, v, s2⟩
    rw [hc] at hov
    dsimp only [] at hov
    subst hov
    simp
  · have hov := gai64_core_overflow s NANOCBOR_SIZE_LONG NANOCBOR_SIZE_LONG
      (2 ^ 63 - 1) k r u hct hk hL hr (lt_of_lt_of_le (by norm_num) h63)
    rw [nanocbor_get_int64, gai64_unpacked g s _ _ hp]
    rcases hc : _get_and_advance_int64_core s NANOCBOR_SIZE_LONG (2 ^ 63 - 1)
      with ⟨res, v, s2⟩
    rw [hc] at hov
    dsimp only [] at hov
    subst hov
    simp

/-- The signed value produced by an in-range integer getter is fixed by
the truncating destination cast. -/
theorem castSigned_int_val (w u k : Nat) (hw : 1 ≤ w) (hu : u < 2 ^ (w - 1)) :
    castSigned w (if k = 1 then -1 - (u : Int) else (u : Int))
      = (if k = 1 then -1 - (u : Int) else (u : Int)) := by
  have hcast : ((u : Nat) : Int) < 2 ^ (w - 1) := by
    calc ((u : Nat) : Int) < ((2 ^ (w - 1) : Nat) : Int) := by exact_mod_cast hu
      _ = 2 ^ (w - 1) := by push_cast; ring
  have hpos : (0 : Int) ≤ (u : Int) := Int.natCast_nonneg u
  apply castSigned_id w _ hw <;>
    generalize hP : ((2 : Int) ^ (w - 1)) = P at hcast ⊢ <;>
    split <;> omega

/-- Success of the four unsigned width getters: a uint head accepted
under the destination's size class yields the exact value, the byte
count, and the advanced cursor. -/
theorem c6_uint_success (g : Nat) (s : NValue)
    (hp : _packed_enabled s = false) :
    (∀ r : Int, ∀ u : Nat,
      _get_uint64 s NANOCBOR_SIZE_BYTE NANOCBOR_TYPE_UINT = (r, u) → 0 < r →
      nanocbor_get_uint8 (g + 2) s = some (r, u, _advance s r.toNat)
      ∧ u < 2 ^ 8)
    ∧ (∀ r : Int, ∀ u : Nat,
      _get_uint64 s NANOCBOR_SIZE_SHORT NANOCBOR_TYPE_UINT = (r, u) → 0 < r →
      nanocbor_get_uint16 (g + 2) s = some (r, u, _advance s r.toNat)
      ∧ u < 2 ^ 16)
    ∧ (∀ r : Int, ∀ u : Nat,
      _get_uint64 s NANOCBOR_SIZE_WORD NANOCBOR_TYPE_UINT = (r, u) → 0 < r →
      nanocbor_get_uint32 (g + 2) s = some (r, u, _advance s r.toNat)
      ∧ u < 2 ^ 32)
    ∧ (∀ r : Int, ∀ u : Nat,
      _get_uint64 s NANOCBOR_SIZE_LONG NANOCBOR_TYPE_UINT = (r, u) → 0 < r →
      nanocbor_get_uint64 (g + 2) s = some (r, u, _advance s r.toNat)) := by
  refine ⟨fun r u hB hr => ?_, fun r u hB hr => ?_, fun r u hB hr => ?_,
    fun r u hB hr => ?_⟩
  · have hu := get_uint64_success_lt s NANOCBOR_SIZE_BYTE 0 _ r u hB hr
      (by norm_num [NANOCBOR_SIZE_BYTE])
    have hu' : u < 2 ^ 8 := by simpa using hu
    refine ⟨?_, hu'⟩
    rw [nanocbor_get_uint8, gau8_unpacked g s _ hp, hB]
    dsimp only []
    rw [_advance_if, if_pos (show r > 0 from hr)]
    rw [Nat.mod_eq_of_lt (show u < 256 from by simpa using hu')]
  · have hu := get_uint64_success_lt s NANOCBOR_SIZE_SHORT 1 _ r u hB hr
      (by norm_num [NANOCBOR_SIZE_SHORT])
    have hu' : u < 2 ^ 16 := by simpa using hu
    refine ⟨?_, hu'⟩
    rw [nanocbor_get_uint16, gau64_unpacked g s _ hp, hB]
    dsimp only []
    rw [_advance_if, if_pos (show r > 0 from hr)]
    rw [Nat.mod_eq_of_lt (show u < 2 ^ 16 from hu')]
  · have hu := get_uint64_success_lt s NANOCBOR_SIZE_WORD 2 _ r u hB hr
      (by norm_num [NANOCBOR_SIZE_WORD])
    have hu' : u < 2 ^ 32 := by simpa using hu
    refine ⟨?_, hu'⟩
    rw [nanocbor_get_uint32, gau64_unpacked g s _ hp, hB]
    dsimp only []
    rw [_advance_if, if_pos (show r > 0 from hr)]
    rw [Nat.mod_eq_of_lt (show u < 2 ^ 32 from hu')]
  · rw [nanocbor_get_uint64, gau64_unpacked g s _ hp, hB]
    dsimp only []
    rw [_advance_if, if_pos (show r > 0 from hr)]

/-- Success of the four signed width getters: an integer head whose raw
argument fits the destination's signed range yields the exact signed
value (`-1 - u` for the nint major), the byte count, and the advanced
cursor. -/
theorem c6_int_success (g : Nat) (s : NValue)
    (hp : _packed_enabled s = false) (k : Nat)
    (hct : __get_type s = (k : Int)) (hk : k ≤ 1) :
    (∀ r : Int, ∀ u : Nat,
      _get_uint64 s NANOCBOR_SIZE_BYTE ((k : Nat) : Int) = (r, u) → 0 < r →
      u < 2 ^ 7 →
      nanocbor_get_int8 (g + 2) s
        = some (r, (if k = 1 then -1 - (u : Int) else (u : Int)),
            _advance s r.toNat))
    ∧ (∀ r : Int, ∀ u : Nat,
      _get_uint64 s NANOCBOR_SIZE_SHORT ((k : Nat) : Int) = (r, u) → 0 < r →
      u < 2 ^ 15 →
      nanocbor_get_int16 (g + 2) s
        = some (r, (if k = 1 then -1 - (u : Int) else (u : Int)),
            _advance s r.toNat))
    ∧ (∀ r : Int, ∀ u : Nat,
      _get_uint64 s NANOCBOR_SIZE_WORD ((k : Nat) : Int) = (r, u) → 0 < r →
      u < 2 ^ 31 →
      nanocbor_get_int32 (g + 2) s
        = some (r, (if k = 1 then -1 - (u : Int) else (u : Int)),
            _advance s r.toNat))
    ∧ (∀ r : Int, ∀ u : Nat,
      _get_uint64 s NANOCBOR_SIZE_LONG ((k : Nat) : Int) = (r, u) → 0 < r →
      u < 2 ^ 63 →
      nanocbor_get_int64 (g + 2) s
        = some (r, (if k = 1 then -1 - (u : Int) else (u : Int)),
            _advance s r.toNat)) := by
  refine ⟨fun r u hB hr hu => ?_, fun r u hB hr hu => ?_,
    fun r u hB hr hu => ?_, fun r u hB hr hu => ?_⟩
  · have hcore := gai64_core_success s NANOCBOR_SIZE_BYTE (2 ^ 7 - 1) k r u
      hct hk hB hr (Nat.le_sub_one_of_lt hu)
      (lt_of_lt_of_le hu (by norm_num))
    rw [nanocbor_get_int8, gai64_unpacked g s _ _ hp, hcore]
    dsimp only []
    rw [castSigned_int_val 8 u k (by norm_num) (by simpa using hu)]
  · have hcore := gai64_core_success s NANOCBOR_SIZE_SHORT (2 ^ 15 - 1) k r u
      hct hk hB hr (Nat.le_sub_one_of_lt hu)
      (lt_of_lt_of_le hu (by norm_num))
    rw [nanocbor_get_int16, gai64_unpacked g s _ _ hp, hcore]
    dsimp only []
    rw [castSigned_int_val 16 u k (by norm_num) (by simpa using hu)]
  · have hcore := gai64_core_success s NANOCBOR_SIZE_WORD (2 ^ 31 - 1) k r u
      hct hk hB hr (Nat.le_sub_one_of_lt hu)
      (lt_of_lt_of_le hu (by norm_num))
    rw [nanocbor_get_int32, gai64_unpacked g s _ _ hp, hcore]
    dsimp only []
    rw [castSigned_int_val 32 u k (by norm_num) (by simpa using hu)]
  · have hcore := gai64_core_success s NANOCBOR_SIZE_LONG (2 ^ 63 - 1) k r u
      hct hk hB hr (Nat.le_sub_one_of_lt hu) hu
    rw [nanocbor_get_int64, gai64_unpacked g s _ _ hp, hcore]

/-- C6: width-limited integer getters.  With packed support disabled (no
packed indirection in play), for every cursor state: the four unsigned
and four signed getters fail with `INVALID_TYPE` on a wrong major type;
they fail with `OVERFLOW` when the head's decoded argument `u` does not
fit the destination (for the signed getters the value — `u` for uint,
`-1 - u` for nint — lies outside the signed range exactly when
`2^(w-1) ≤ u`); and on success they return the consumed byte count, the
exact decoded value, and the cursor advanced past the head. -/
theorem claim_C6 (g : Nat) (s : NValue) (hp : _packed_enabled s = false) :
    (∀ k : Nat, __get_type s = (k : Int) → 1 ≤ k →
      (nanocbor_get_uint8 (g + 2) s).map (fun t => t.1)
          = some NANOCBOR_ERR_INVALID_TYPE
      ∧ (nanocbor_get_uint16 (g + 2) s).map (fun t => t.1)
          = some NANOCBOR_ERR_INVALID_TYPE
      ∧ (nanocbor_get_uint32 (g + 2) s).map (fun t => t.1)
          = some NANOCBOR_ERR_INVALID_TYPE
      ∧ (nanocbor_get_uint64 (g + 2) s).map (fun t => t.1)
          = some NANOCBOR_ERR_INVALID_TYPE)
    ∧ (∀ k : Nat, __get_type s = (k : Int) → 2 ≤ k →
      (nanocbor_get_int8 (g + 2) s).map (fun t => t.1)
          = some NANOCBOR_ERR_INVALID_TYPE
      ∧ (nanocbor_get_int16 (g + 2) s).map (fun t => t.1)
          = some NANOCBOR_ERR_INVALID_TYPE
      ∧ (nanocbor_get_int32 (g + 2) s).map (fun t => t.1)
          = some NANOCBOR_ERR_INVALID_TYPE
      ∧ (nanocbor_get_int64 (g + 2) s).map (fun t => t.1)
          = some NANOCBOR_ERR_INVALID_TYPE)
    ∧ (∀ r : Int, ∀ u : Nat,
      _get_uint64 s NANOCBOR_SIZE_LONG NANOCBOR_TYPE_UINT = (r, u) → 0 < r →
      (2 ^ 8 ≤ u → (nanocbor_get_uint8 (g + 2) s).map (fun t => t.1)
          = some NANOCBOR_ERR_OVERFLOW)
      ∧ (2 ^ 16 ≤ u → (nanocbor_get_uint16 (g + 2) s).map (fun t => t.1)
          = some NANOCBOR_ERR_OVERFLOW)
      ∧ (2 ^ 32 ≤ u → (nanocbor_get_uint32 (g + 2) s).map (fun t => t.1)
          = some NANOCBOR_ERR_OVERFLOW))
    ∧ (∀ k : Nat, ∀ r : Int, ∀ u : Nat,
      __get_type s = (k : Int) → k ≤ 1 →
      _get_uint64 s NANOCBOR_SIZE_LONG ((k : Nat) : Int) = (r, u) → 0 < r →
      (2 ^ 7 ≤ u → (nanocbor_get_int8 (g + 2) s).map (fun t => t.1)
          = some NANOCBOR_ERR_OVERFLOW)
      ∧ (2 ^ 15 ≤ u → (nanocbor_get_int16 (g + 2) s).map (fun t => t.1)
          = some NANOCBOR_ERR_OVERFLOW)
      ∧ (2 ^ 31 ≤ u → (nanocbor_get_int32 (g + 2) s).map (fun t => t.1)
          = some NANOCBOR_ERR_OVERFLOW)
      ∧ (2 ^ 63 ≤ u → (nanocbor_get_int64 (g + 2) s).map (fun t => t.1)
          = some NANOCBOR_ERR_OVERFLOW))
    ∧ ((∀ r : Int, ∀ u : Nat,
      _get_uint64 s NANOCBOR_SIZE_BYTE NANOCBOR_TYPE_UINT = (r, u) → 0 < r →
      nanocbor_get_uint8 (g + 2) s = some (r, u, _advance s r.toNat)
      ∧ u < 2 ^ 8)
    ∧ (∀ r : Int, ∀ u : Nat,
      _get_uint64 s NANOCBOR_SIZE_SHORT NANOCBOR_TYPE_UINT = (r, u) → 0 < r →
      nanocbor_get_uint16 (g + 2) s = some (r, u, _advance s r.toNat)
      ∧ u < 2 ^ 16)
    ∧ (∀ r : Int, ∀ u : Nat,
      _get_uint64 s NANOCBOR_SIZE_WORD NANOCBOR_TYPE_UINT = (r, u) → 0 < r →
      nanocbor_get_uint32 (g + 2) s = some (r, u, _advance s r.toNat)
      ∧ u < 2 ^ 32)
    ∧ (∀ r : Int, ∀ u : Nat,
      _get_uint64 s NANOCBOR_SIZE_LONG NANOCBOR_TYPE_UINT = (r, u) → 0 < r →
      nanocbor_get_uint64 (g + 2) s = some (r, u, _advance s r.toNat)))
    ∧ (∀ k : Nat, __get_type s = (k : Int) → k ≤ 1 →
      (∀ r : Int, ∀ u : Nat,
        _get_uint64 s NANOCBOR_SIZE_BYTE ((k : Nat) : Int) = (r, u) → 0 < r →
        u < 2 ^ 7 →
        nanocbor_get_int8 (g + 2) s
          = some (r, (if k = 1 then -1 - (u : Int) else (u : Int)),
              _advance s r.toNat))
      ∧ (∀ r : Int, ∀ u : Nat,
        _get_uint64 s NANOCBOR_SIZE_SHORT ((k : Nat) : Int) = (r, u) → 0 < r →
        u < 2 ^ 15 →
        nanocbor_get_int16 (g + 2) s
          = some (r, (if k = 1 then -1 - (u : Int) else (u : Int)),
              _advance s r.toNat))
      ∧ (∀ r : Int, ∀ u : Nat,
        _get_uint64 s NANOCBOR_SIZE_WORD ((k : Nat) : Int) = (r, u) → 0 < r →
        u < 2 ^ 31 →
        nanocbor_get_int32 (g + 2) s
          = some (r, (if k = 1 then -1 - (u : Int) else (u : Int)),
              _advance s r.toNat))
      ∧ (∀ r : Int, ∀ u : Nat,
        _get_uint64 s NANOCBOR_SIZE_LONG ((k : Nat) : Int) = (r, u) → 0 < r →
        u < 2 ^ 63 →
        nanocbor_get_int64 (g + 2) s
          = some (r, (if k = 1 then -1 - (u : Int) else (u : Int)),
              _advance s r.toNat))) :=
  ⟨fun k hct hk => c6_uint_wrong g s hp k hct hk,
   fun k hct hk => c6_int_wrong g s hp k hct hk,
   fun r u hL hr => c6_uint_overflow g s hp r u hL hr,
   fun k r u hct hk hL hr => c6_int_overflow g s hp k r u hct hk hL hr,
   c6_uint_success g s hp,
   fun k hct hk => c6_int_success g s hp k hct hk⟩

/-- Witness for C6 on the stream `18 2A` (uint8-encoded 42). -/
theorem claim_C6_witness :
    _packed_enabled (nanocbor_decoder_init [0x18, 0x2A] 0 2) = false
    ∧ _get_uint64 (nanocbor_decoder_init [0x18, 0x2A] 0 2)
        NANOCBOR_SIZE_BYTE NANOCBOR_TYPE_UINT = (2, 42)
    ∧ (nanocbor_get_uint8 2 (nanocbor_decoder_init [0x18, 0x2A] 0 2)
        = some (2, 42, _advance (nanocbor_decoder_init [0x18, 0x2A] 0 2)
            ((2 : Int)).toNat)
       ∧ 42 < 2 ^ 8) :=
  ⟨by decide, by decide,
   (claim_C6 0 (nanocbor_decoder_init [0x18, 0x2A] 0 2)
     (by decide)).2.2.2.2.1.1 2 42 (by decide) (by decide)⟩

/-- Distributing `asRS` over the common `_packed_handle` continuation
match. -/
theorem asRS_match_finish (X : Option (Int × NValue)) (f limit : Nat) :
    asRS (match X with
      | none => none
      | some r => decodeRun f (.packedHandleFinish r.1 r.2 limit))
      = match X with
        | none => none
        | some r => _packed_handle_finish f r limit := by
  cases X <;> rfl

/-- Tag-6 packed reference resolution: with packed support on, recursion
budget left, a tag 6 whose argument head decodes to an integer `n` of
major `k` (uint `k = 0`, nint `k = 1`), and the inner prologue finding
nothing to unpack, `_packed_handle` chains into
`_packed_follow_reference` at table index `16 + 2n (+ 1 for nint)`
(computed in `uint64_t`), on the cursor advanced past the argument, with
the same (undecremented) budget. -/
theorem packed_tag6_index (f : Nat) (s s2 : NValue) (limit : Nat) (k : Nat)
    (rt1 rn1 : Int) (n : Nat)
    (hp : _packed_enabled s = true) (hlim : limit ≠ 0)
    (htag : __get_type s = NANOCBOR_TYPE_TAG)
    (hrt : _get_uint64 s NANOCBOR_SIZE_WORD NANOCBOR_TYPE_TAG
      = (rt1, NANOCBOR_TAG_PACKED_REF_SHARED))
    (hrt1 : 0 ≤ rt1)
    (hinner : _packed_handle f { s with cur := s.cur + rt1.toNat } (limit - 1)
      = some (NANOCBOR_NOT_FOUND, s2))
    (hct2 : __get_type s2 = (k : Int)) (hk : k ≤ 1)
    (hrn : _get_uint64 s2 NANOCBOR_SIZE_LONG ((k : Nat) : Int) = (rn1, n))
    (hrn1 : 0 < rn1) :
    _packed_handle (f + 1) s limit
      = match _packed_follow_reference f (_advance s2 rn1.toNat)
            ((16 + 2 * n + (if k = 1 then 1 else 0)) % U64_MOD) limit with
        | none => none
        | some r => _packed_handle_finish f r limit := by
  interval_cases k <;>
  · show asRS (decodeStep (decodeRun f) (.packedHandle s limit)) = _
    rw [decodeStep]
    rw [if_neg (by simp [hp]), if_neg hlim]
    simp only []
    rw [htag, if_pos rfl, hrt]
    dsimp only []
    rw [if_neg (not_lt.mpr hrt1), if_neg (by decide), if_pos rfl]
    rw [← _packed_handle, hinner]
    dsimp only []
    rw [if_neg (by decide)]
    rw [hct2]
    rw [if_neg (by decide)]
    rw [hrn]
    dsimp only []
    rw [if_neg (not_le.mpr hrn1)]
    rw [← _packed_follow_reference]
    norm_num [NANOCBOR_TYPE_NINT]
    exact asRS_match_finish _ f limit

/-- The 20-byte table stream of the C9 scenario: an 18-entry array
`[0, F6 x 15, F5, F4]`. -/
def tblC9 : List Nat := [0x92, 0x00] ++ List.replicate 15 0xF6 ++ [0xF5, 0xF4]

/-- The C9 scenario memory: the 6-byte stream `c6 00, c6 20, c6 e0`
followed by the table. -/
def memC9 : List Nat := [0xC6, 0x00, 0xC6, 0x20, 0xC6, 0xE0] ++ tblC9

/-- Run `nanocbor_get_bool` `n` times, collecting results. -/
def getBools (fuel : Nat) : Nat → NValue → Option (List (Int × Bool) × NValue)
  | 0, s => some ([], s)
  | n + 1, s =>
    (nanocbor_get_bool fuel s).bind fun r =>
      (getBools fuel n r.2.2).map fun t => ((r.1, r.2.1) :: t.1, t.2)

/-- C9: packed tag-6 reference indexing.  With packed support enabled, a
tag-6 reference whose argument decodes to unsigned `n` resolves through
`_packed_follow_reference` at table index `(16 + 2n) mod 2^64`, and a
negative argument (nint raw value `n`, denoting `-1 - n`) at index
`(16 + 2n + 1) mod 2^64`; and over the 18-entry table `[0, F6 x 15, F5,
F4]`, the stream `c6 00, c6 20, c6 e0` makes three successive `get_bool`
calls yield `true, false, true`. -/
theorem claim_C9 :
    (∀ (f : Nat) (s s2 : NValue) (limit : Nat) (rt1 rn1 : Int) (n : Nat),
      _packed_enabled s = true → limit ≠ 0 →
      __get_type s = NANOCBOR_TYPE_TAG →
      _get_uint64 s NANOCBOR_SIZE_WORD NANOCBOR_TYPE_TAG
        = (rt1, NANOCBOR_TAG_PACKED_REF_SHARED) →
      0 ≤ rt1 →
      _packed_handle f { s with cur := s.cur + rt1.toNat } (limit - 1)
        = some (NANOCBOR_NOT_FOUND, s2) →
      __get_type s2 = NANOCBOR_TYPE_UINT →
      _get_uint64 s2 NANOCBOR_SIZE_LONG NANOCBOR_TYPE_UINT = (rn1, n) →
      0 < rn1 →
      _packed_handle (f + 1) s limit
        = match _packed_follow_reference f (_advance s2 rn1.toNat)
              ((16 + 2 * n) % U64_MOD) limit with
          | none => none
          | some r => _packed_handle_finish f r limit)
    ∧ (∀ (f : Nat) (s s2 : NValue) (limit : Nat) (rt1 rn1 : Int) (n : Nat),
      _packed_enabled s = true → limit ≠ 0 →
      __get_type s = NANOCBOR_TYPE_TAG →
      _get_uint64 s NANOCBOR_SIZE_WORD NANOCBOR_TYPE_TAG
        = (rt1, NANOCBOR_TAG_PACKED_REF_SHARED) →
      0 ≤ rt1 →
      _packed_handle f { s with cur := s.cur + rt1.toNat } (limit - 1)
        = some (NANOCBOR_NOT_FOUND, s2) →
      __get_type s2 = NANOCBOR_TYPE_NINT →
      _get_uint64 s2 NANOCBOR_SIZE_LONG NANOCBOR_TYPE_NINT = (rn1, n) →
      0 < rn1 →
      _packed_handle (f + 1) s limit
        = match _packed_follow_reference f (_advance s2 rn1.toNat)
              ((16 + 2 * n + 1) % U64_MOD) limit with
          | none => none
          | some r => _packed_handle_finish f r limit)
    ∧ ((nanocbor_decoder_init_packed_table 23 memC9 0 6 (some 6) 19).bind
        (fun r0 =>
          if r0.1 = NANOCBOR_OK then
            (getBools 23 3 r0.2).map (fun t => (t.1, nanocbor_at_end t.2))
          else none)
      = some ([(NANOCBOR_OK, true), (NANOCBOR_OK, false), (NANOCBOR_OK, true)],
          true)) := by
  refine ⟨?_, ?_, ?_⟩
  · intro f s s2 limit rt1 rn1 n hp hlim htag hrt hrt1 hinner hct2 hrn hrn1
    rw [show NANOCBOR_TYPE_UINT = ((0 : Nat) : Int) from by
      norm_num [NANOCBOR_TYPE_UINT]] at hct2 hrn
    have h := packed_tag6_index f s s2 limit 0 rt1 rn1 n hp hlim htag hrt hrt1
      hinner hct2 (by norm_num) hrn hrn1
    rw [show (16 + 2 * n + (if (0 : Nat) = 1 then 1 else 0)) = 16 + 2 * n
      from by norm_num] at h
    exact h
  · intro f s s2 limit rt1 rn1 n hp hlim htag hrt hrt1 hinner hct2 hrn hrn1
    rw [show NANOCBOR_TYPE_NINT = ((1 : Nat) : Int) from by
      norm_num [NANOCBOR_TYPE_NINT]] at hct2 hrn
    have h := packed_tag6_index f s s2 limit 1 rt1 rn1 n hp hlim htag hrt hrt1
      hinner hct2 (by norm_num) hrn hrn1
    rw [show (16 + 2 * n + (if (1 : Nat) = 1 then 1 else 0)) = 16 + 2 * n + 1
      from by norm_num] at h
    exact h
  · decide

/-- Witness for C9's general clause on the 2-byte stream `c6 00`. -/
theorem claim_C9_witness :
    (_packed_enabled (nanocbor_decoder_init_packed [0xC6, 0x00] 0 2) = true
    ∧ _packed_handle 5 { nanocbor_decoder_init_packed [0xC6, 0x00] 0 2 with
        cur := (nanocbor_decoder_init_packed [0xC6, 0x00] 0 2).cur
          + ((1 : Int)).toNat } (2 - 1)
      = some (NANOCBOR_NOT_FOUND,
          { nanocbor_decoder_init_packed [0xC6, 0x00] 0 2 with cur := 1 }))
    ∧ _packed_handle 6 (nanocbor_decoder_init_packed [0xC6, 0x00] 0 2) 2
      = match _packed_follow_reference 5
            (_advance { nanocbor_decoder_init_packed [0xC6, 0x00] 0 2 with
              cur := 1 } ((1 : Int)).toNat) ((16 + 2 * 0) % U64_MOD) 2 with
        | none => none
        | some r => _packed_handle_finish 5 r 2 :=
  ⟨⟨by decide, by decide⟩,
   claim_C9.1 5 (nanocbor_decoder_init_packed [0xC6, 0x00] 0 2)
     { nanocbor_decoder_init_packed [0xC6, 0x00] 0 2 with cur := 1 }
     2 1 1 0 (by decide) (by decide) (by decide) (by decide) (by decide)
     (by decide) (by decide) (by decide) (by decide)⟩

/-- The bytes `_fmt_uint64` appends for argument `num` under major-type
mask `type` (head byte, then the big-endian argument). -/
def headBytes (num type : Nat) : List Nat :=
  if num < NANOCBOR_SIZE_BYTE then [type ||| num]
  else if 0xFFFFFFFF < num then (type ||| NANOCBOR_SIZE_LONG) :: beBytes 8 num
  else if 0xFFFF < num then (type ||| NANOCBOR_SIZE_WORD) :: beBytes 4 num
  else if 0xFF < num then (type ||| NANOCBOR_SIZE_SHORT) :: beBytes 2 num
  else (type ||| NANOCBOR_SIZE_BYTE) :: beBytes 1 num

/-- `_fmt_single`, fully characterized: `len` always accumulates; the
byte is appended exactly when the sink reports room. -/
theorem fmt_single_spec (e : NEncoder) (n : Nat) :
    _fmt_single e n
      = if 1 ≤ e.cap - e.written.length
        then (1, { e with
          len := (e.len + 1) % U64_MOD
          written := e.written ++ [n] })
        else (NANOCBOR_ERR_END, { e with len := (e.len + 1) % U64_MOD }) := by
  rw [_fmt_single]
  by_cases h : (1 : Nat) ≤ e.cap - e.written.length
  · rw [if_pos h]
    have hf : _fits (_incr_len e 1) 1 = 1 := by
      rw [_fits, if_pos (by simpa [_encoder_mem_fits, _incr_len] using h)]
      norm_num
    simp only [hf]
    rw [if_pos trivial]
    rfl
  · rw [if_neg h]
    have hf : _fits (_incr_len e 1) 1 = NANOCBOR_ERR_END := by
      rw [_fits, if_neg (by simpa [_encoder_mem_fits, _incr_len] using h)]
    simp only [hf]
    rw [if_neg (by norm_num [NANOCBOR_ERR_END])]
    rfl

/-- Common tail of `_fmt_uint64` once the head bytes are fixed. -/
theorem fmt_tail (e : NEncoder) (b : Nat) (bs : List Nat) :
    (let e1 := _incr_len e (bs.length + 1)
     let res := _fits e1 (bs.length + 1)
     if res > 0 then
       (res, _encoder_mem_append (_encoder_mem_append e1 [b]) bs)
     else (res, e1))
      = if (b :: bs).length ≤ e.cap - e.written.length
        then (((b :: bs).length : Int), { e with
          len := (e.len + (b :: bs).length) % U64_MOD
          written := e.written ++ b :: bs })
        else (NANOCBOR_ERR_END, { e with
          len := (e.len + (b :: bs).length) % U64_MOD }) := by
  simp only [List.length_cons]
  by_cases h : bs.length + 1 ≤ e.cap - e.written.length
  · rw [if_pos h]
    have hf : _fits (_incr_len e (bs.length + 1)) (bs.length + 1)
        = ((bs.length + 1 : Nat) : Int) := by
      rw [_fits, if_pos (by simpa [_encoder_mem_fits, _incr_len] using h)]
    simp only [hf]
    rw [if_pos (show (0 : Int) < ((bs.length + 1 : Nat) : Int) from by
      exact_mod_cast Nat.succ_pos bs.length)]
    simp [_encoder_mem_append, _incr_len, List.append_assoc]
  · rw [if_neg h]
    have hf : _fits (_incr_len e (bs.length + 1)) (bs.length + 1)
        = NANOCBOR_ERR_END := by
      rw [_fits, if_neg (by simpa [_encoder_mem_fits, _incr_len] using h)]
    simp only [hf]
    rw [if_neg (by norm_num [NANOCBOR_ERR_END])]
    rfl

/-- `_fmt_uint64`, fully characterized: `len` always accumulates by the
head size; the head bytes are appended exactly when the sink reports
room; the sink's refusal is reported as `NANOCBOR_ERR_END`. -/
theorem fmt_uint64_cases (e : NEncoder) (num type : Nat) :
    _fmt_uint64 e num type
      = if (headBytes num type).length ≤ e.cap - e.written.length
        then (((headBytes num type).length : Int), { e with
          len := (e.len + (headBytes num type).length) % U64_MOD
          written := e.written ++ headBytes num type })
        else (NANOCBOR_ERR_END, { e with
          len := (e.len + (headBytes num type).length) % U64_MOD }) := by
  rw [_fmt_uint64, headBytes]
  by_cases h1 : num < NANOCBOR_SIZE_BYTE
  · rw [if_pos h1, if_pos h1]
    exact fmt_tail e (type ||| num) (beBytes 0 num)
  · rw [if_neg h1, if_neg h1]
    by_cases h2 : 0xFFFFFFFF < num
    · rw [if_pos h2, if_pos h2]
      exact fmt_tail e (type ||| NANOCBOR_SIZE_LONG) (beBytes 8 num)
    · rw [if_neg h2, if_neg h2]
      by_cases h3 : 0xFFFF < num
      · rw [if_pos h3, if_pos h3]
        exact fmt_tail e (type ||| NANOCBOR_SIZE_WORD) (beBytes 4 num)
      · rw [if_neg h3, if_neg h3]
        by_cases h4 : 0xFF < num
        · rw [if_pos h4, if_pos h4]
          exact fmt_tail e (type ||| NANOCBOR_SIZE_SHORT) (beBytes 2 num)
        · rw [if_neg h4, if_neg h4]
          exact fmt_tail e (type ||| NANOCBOR_SIZE_BYTE) (beBytes 1 num)

/-- One call of the head-formatting encoder API (the `nanocbor_fmt_*`
family). -/
inductive ECmd where
  | bool (b : Bool)
  | uint (n : Nat)
  | int (i : Int)
  | tag (n : Nat)
  | simple (v : Nat)
  | bstrHead (n : Nat)
  | tstrHead (n : Nat)
  | array (n : Nat)
  | map (n : Nat)
  | arrayIndef
  | mapIndef
  | endIndef
  | null
deriving DecidableEq, Repr

/-- Dispatch one formatter call. -/
def runCmd (e : NEncoder) : ECmd → Int × NEncoder
  | .bool b => nanocbor_fmt_bool e b
  | .uint n => nanocbor_fmt_uint e n
  | .int i => nanocbor_fmt_int e i
  | .tag n => nanocbor_fmt_tag e n
  | .simple v => nanocbor_fmt_simple e v
  | .bstrHead n => nanocbor_fmt_bstr e n
  | .tstrHead n => nanocbor_fmt_tstr e n
  | .array n => nanocbor_fmt_array e n
  | .map n => nanocbor_fmt_map e n
  | .arrayIndef => nanocbor_fmt_array_indefinite e
  | .mapIndef => nanocbor_fmt_map_indefinite e
  | .endIndef => nanocbor_fmt_end_indefinite e
  | .null => nanocbor_fmt_null e

/-- The canonical bytes a formatter call emits (empty for a rejected
simple value). -/
def cmdBytes : ECmd → List Nat
  | .bool b => [NANOCBOR_MASK_FLOAT
      ||| (if b then NANOCBOR_SIMPLE_TRUE else NANOCBOR_SIMPLE_FALSE)]
  | .uint n => headBytes n NANOCBOR_MASK_UINT
  | .int i =>
    if i < 0 then headBytes (-(i + 1)).toNat NANOCBOR_MASK_NINT
    else headBytes i.toNat NANOCBOR_MASK_UINT
  | .tag n => headBytes n NANOCBOR_MASK_TAG
  | .simple v =>
    if NANOCBOR_SIMPLE_FALSE ≤ v ∧ v ≤ NANOCBOR_SIZE_INDEFINITE then []
    else headBytes v NANOCBOR_MASK_FLOAT
  | .bstrHead n => headBytes n NANOCBOR_MASK_BSTR
  | .tstrHead n => headBytes n NANOCBOR_MASK_TSTR
  | .array n => headBytes n NANOCBOR_MASK_ARR
  | .map n => headBytes n NANOCBOR_MASK_MAP
  | .arrayIndef => [NANOCBOR_MASK_ARR ||| NANOCBOR_SIZE_INDEFINITE]
  | .mapIndef => [NANOCBOR_MASK_MAP ||| NANOCBOR_SIZE_INDEFINITE]
  | .endIndef => [NANOCBOR_MASK_FLOAT ||| NANOCBOR_SIZE_INDEFINITE]
  | .null => [NANOCBOR_MASK_FLOAT ||| NANOCBOR_SIMPLE_NULL]

/-- Run a sequence of formatter calls, threading the encoder. -/
def runCmds (e : NEncoder) : List ECmd → NEncoder
  | [] => e
  | c :: cs => runCmds (runCmd e c).2 cs

/-- `true` when no call in the sequence was refused by the sink. -/
def runCmdsOk (e : NEncoder) : List ECmd → Bool
  | [] => true
  | c :: cs => (decide ((runCmd e c).1 ≠ NANOCBOR_ERR_END))
      && runCmdsOk (runCmd e c).2 cs

/-- Concatenated canonical bytes of a call sequence. -/
def cmdsBytes : List ECmd → List Nat
  | [] => []
  | c :: cs => cmdBytes c ++ cmdsBytes cs

/-- One formatter call, characterized: the capacity is untouched, `len`
accumulates by the canonical size whether or not the bytes fit, and the
canonical bytes are appended exactly when they fit (sink refusal being
reported as `NANOCBOR_ERR_END`). -/
theorem runCmd_spec (e : NEncoder) (c : ECmd) (hlen : e.len < U64_MOD) :
    (runCmd e c).2.cap = e.cap
    ∧ (runCmd e c).2.len = (e.len + (cmdBytes c).length) % U64_MOD
    ∧ (if (cmdBytes c).length ≤ e.cap - e.written.length
       then (runCmd e c).2.written = e.written ++ cmdBytes c
            ∧ (runCmd e c).1 ≠ NANOCBOR_ERR_END
       else (runCmd e c).2.written = e.written
            ∧ (runCmd e c).1 = NANOCBOR_ERR_END) := by
  have hsingle : ∀ b : Nat,
      (_fmt_single e b).2.cap = e.cap
      ∧ (_fmt_single e b).2.len = (e.len + ([b] : List Nat).length) % U64_MOD
      ∧ (if ([b] : List Nat).length ≤ e.cap - e.written.length
         then (_fmt_single e b).2.written = e.written ++ [b]
              ∧ (_fmt_single e b).1 ≠ NANOCBOR_ERR_END
         else (_fmt_single e b).2.written = e.written
              ∧ (_fmt_single e b).1 = NANOCBOR_ERR_END) := by
    intro b
    rw [fmt_single_spec]
    by_cases h : ([b] : List Nat).length ≤ e.cap - e.written.length
    · rw [if_pos (by simpa using h), if_pos h]
      exact ⟨rfl, rfl, rfl, by norm_num [NANOCBOR_ERR_END]⟩
    · rw [if_neg (by simpa using h), if_neg h]
      exact ⟨rfl, rfl, rfl, rfl⟩
  have hhead : ∀ num type : Nat,
      (_fmt_uint64 e num type).2.cap = e.cap
      ∧ (_fmt_uint64 e num type).2.len
          = (e.len + (headBytes num type).length) % U64_MOD
      ∧ (if (headBytes num type).length ≤ e.cap - e.written.length
         then (_fmt_uint64 e num type).2.written
                = e.written ++ headBytes num type
              ∧ (_fmt_uint64 e num type).1 ≠ NANOCBOR_ERR_END
         else (_fmt_uint64 e num type).2.written = e.written
              ∧ (_fmt_uint64 e num type).1 = NANOCBOR_ERR_END) := by
    intro num type
    rw [fmt_uint64_cases]
    by_cases h : (headBytes num type).length ≤ e.cap - e.written.length
    · rw [if_pos h, if_pos h]
      refine ⟨rfl, rfl, rfl, ?_⟩
      have : (0 : Int) < ((headBytes num type).length : Int) := by
        have : headBytes num type ≠ [] := by
          rw [headBytes]
          split_ifs <;> simp
        have hpos : 0 < (headBytes num type).length :=
          List.length_pos.mpr this
        exact_mod_cast hpos
      norm_num [NANOCBOR_ERR_END]
      omega
    · rw [if_neg h, if_neg h]
      exact ⟨rfl, rfl, rfl, rfl⟩
  cases c
  case bool b => exact hsingle _
  case uint n => exact hhead n NANOCBOR_MASK_UINT
  case int i =>
    simp only [runCmd, nanocbor_fmt_int, nanocbor_fmt_uint, cmdBytes]
    by_cases hi : i < 0
    · simp only [if_pos hi]
      exact hhead (-(i + 1)).toNat NANOCBOR_MASK_NINT
    · simp only [if_neg hi]
      exact hhead i.toNat NANOCBOR_MASK_UINT
  case tag n => exact hhead n NANOCBOR_MASK_TAG
  case simple v =>
    simp only [runCmd, nanocbor_fmt_simple, cmdBytes]
    by_cases hv : NANOCBOR_SIMPLE_FALSE ≤ v ∧ v ≤ NANOCBOR_SIZE_INDEFINITE
    · simp only [if_pos hv]
      refine ⟨trivial, by simpa using (Nat.mod_eq_of_lt hlen).symm, ?_⟩
      rw [if_pos (by simp)]
      exact ⟨by simp, by norm_num [NANOCBOR_ERR_END, NANOCBOR_ERR_INVALID_TYPE]⟩
    · simp only [if_neg hv]
      exact hhead v NANOCBOR_MASK_FLOAT
  case bstrHead n => exact hhead n NANOCBOR_MASK_BSTR
  case tstrHead n => exact hhead n NANOCBOR_MASK_TSTR
  case array n => exact hhead n NANOCBOR_MASK_ARR
  case map n => exact hhead n NANOCBOR_MASK_MAP
  case arrayIndef => exact hsingle _
  case mapIndef => exact hsingle _
  case endIndef => exact hsingle _
  case null => exact hsingle _

/-- Capacity is preserved and `len` accumulates the canonical total over
a call sequence, independently of the sink's capacity. -/
theorem runCmds_spec (cmds : List ECmd) (e : NEncoder) (hlen : e.len < U64_MOD) :
    (runCmds e cmds).cap = e.cap
    ∧ (runCmds e cmds).len = (e.len + (cmdsBytes cmds).length) % U64_MOD := by
  induction cmds generalizing e with
  | nil =>
    refine ⟨rfl, ?_⟩
    simp [runCmds, cmdsBytes, Nat.mod_eq_of_lt hlen]
  | cons c cs ih =>
    obtain ⟨hcap, hl, _⟩ := runCmd_spec e c hlen
    have hlt : (runCmd e c).2.len < U64_MOD := by
      rw [hl]
      exact Nat.mod_lt _ (by norm_num [U64_MOD])
    obtain ⟨ihcap, ihlen⟩ := ih (runCmd e c).2 hlt
    refine ⟨by rw [runCmds, ihcap, hcap], ?_⟩
    rw [runCmds, ihlen, hl, Nat.mod_add_mod]
    simp [cmdsBytes, List.length_append, Nat.add_assoc]

/-- If the canonical bytes of the whole remaining sequence fit in the
buffer (with no `size_t` wrap), no call is refused and the output is
exactly the canonical bytes. -/
theorem runCmds_success (cmds : List ECmd) (e : NEncoder)
    (hsync : e.written.length = e.len)
    (hfit : e.len + (cmdsBytes cmds).length ≤ e.cap)
    (hnw : e.len + (cmdsBytes cmds).length < U64_MOD) :
    runCmdsOk e cmds = true
    ∧ (runCmds e cmds).written = e.written ++ cmdsBytes cmds := by
  induction cmds generalizing e with
  | nil => exact ⟨rfl, by simp [runCmds, cmdsBytes]⟩
  | cons c cs ih =>
    have hlen : e.len < U64_MOD := by omega
    obtain ⟨hcap, hl, hio⟩ := runCmd_spec e c hlen
    have hlc : (cmdsBytes (c :: cs)).length
        = (cmdBytes c).length + (cmdsBytes cs).length := by
      simp [cmdsBytes]
    have hcond : (cmdBytes c).length ≤ e.cap - e.written.length := by omega
    rw [if_pos hcond] at hio
    obtain ⟨hw, hr⟩ := hio
    have hl' : (runCmd e c).2.len = e.len + (cmdBytes c).length := by
      rw [hl, Nat.mod_eq_of_lt (by omega)]
    have ih' := ih (runCmd e c).2
      (by rw [hw, hl']; simp [List.length_append, hsync])
      (by rw [hl', hcap]; omega)
      (by rw [hl']; omega)
    refine ⟨?_, ?_⟩
    · rw [runCmdsOk]
      simp [hr, ih'.1]
    · rw [runCmds, ih'.2, hw, cmdsBytes, List.append_assoc]

/-- C5: sink discipline of the head formatters.  `len` accumulates by
the item's full encoded size (in `size_t`) whether or not the sink
accepts; a sink refusal makes the formatter return `NANOCBOR_ERR_END`
and append nothing; hence over any call sequence the final `len` is the
same for every buffer capacity — in particular the null sink `cap = 0`
reports the required size — and a second pass into a buffer at least
that large refuses nothing and emits exactly the canonical bytes. -/
theorem claim_C5 :
    (∀ (e : NEncoder) (single : Nat),
      (_fmt_single e single).2.len = (e.len + 1) % U64_MOD
      ∧ (_encoder_mem_fits (_incr_len e 1) 1 = false →
          (_fmt_single e single).1 = NANOCBOR_ERR_END
          ∧ (_fmt_single e single).2.written = e.written))
    ∧ (∀ (e : NEncoder) (num type : Nat),
      (_fmt_uint64 e num type).2.len
          = (e.len + (headBytes num type).length) % U64_MOD
      ∧ (_encoder_mem_fits (_incr_len e (headBytes num type).length)
            (headBytes num type).length = false →
          (_fmt_uint64 e num type).1 = NANOCBOR_ERR_END
          ∧ (_fmt_uint64 e num type).2.written = e.written))
    ∧ (∀ (cmds : List ECmd) (cap : Nat),
        (runCmds (nanocbor_encoder_init cap) cmds).len
          = (cmdsBytes cmds).length % U64_MOD)
    ∧ (∀ (cmds : List ECmd) (cap : Nat),
        (cmdsBytes cmds).length < U64_MOD → (cmdsBytes cmds).length ≤ cap →
        runCmdsOk (nanocbor_encoder_init cap) cmds = true
        ∧ (runCmds (nanocbor_encoder_init cap) cmds).written
            = cmdsBytes cmds) := by
  have hmem : ∀ (e : NEncoder) (n : Nat),
      _encoder_mem_fits (_incr_len e n) n = false
        → ¬ n ≤ e.cap - e.written.length := by
    intro e n h
    simpa [_encoder_mem_fits, _incr_len] using h
  refine ⟨?_, ?_, ?_, ?_⟩
  · intro e single
    rw [fmt_single_spec]
    by_cases h : 1 ≤ e.cap - e.written.length
    · exact ⟨by rw [if_pos h], fun hfail => absurd h (hmem e 1 hfail)⟩
    · exact ⟨by rw [if_neg h], fun _ => ⟨by rw [if_neg h], by rw [if_neg h]⟩⟩
  · intro e num type
    rw [fmt_uint64_cases]
    by_cases h : (headBytes num type).length ≤ e.cap - e.written.length
    · exact ⟨by rw [if_pos h], fun hfail => absurd h (hmem e _ hfail)⟩
    · exact ⟨by rw [if_neg h], fun _ => ⟨by rw [if_neg h], by rw [if_neg h]⟩⟩
  · intro cmds cap
    have h := (runCmds_spec cmds (nanocbor_encoder_init cap)
      (by norm_num [nanocbor_encoder_init, U64_MOD])).2
    simpa [nanocbor_encoder_init] using h
  · intro cmds cap hnw hfit
    have h := runCmds_success cmds (nanocbor_encoder_init cap)
      (by simp [nanocbor_encoder_init])
      (by simpa [nanocbor_encoder_init] using hfit)
      (by simpa [nanocbor_encoder_init] using hnw)
    exact ⟨h.1, by simpa [nanocbor_encoder_init] using h.2⟩

/-- Witness for C5's two-pass clause: sizing pass reports 4 bytes for
`[uint 1000, bool true, null]`, and a 4-byte second pass emits them. -/
theorem claim_C5_witness :
    ((cmdsBytes [ECmd.uint 1000, ECmd.bool true, ECmd.null]).length < U64_MOD
    ∧ (cmdsBytes [ECmd.uint 1000, ECmd.bool true, ECmd.null]).length ≤ 5)
    ∧ runCmdsOk (nanocbor_encoder_init 5)
        [ECmd.uint 1000, ECmd.bool true, ECmd.null] = true
    ∧ (runCmds (nanocbor_encoder_init 5)
        [ECmd.uint 1000, ECmd.bool true, ECmd.null]).written
      = cmdsBytes [ECmd.uint 1000, ECmd.bool true, ECmd.null] :=
  ⟨⟨by decide, by decide⟩,
   claim_C5.2.2.2 [ECmd.uint 1000, ECmd.bool true, ECmd.null] 5
     (by decide) (by decide)⟩
